import Mathlib

/-!
Verification development for the whisperwire compliance evaluation engine
(`src/app/src-tauri/src`).  The Rust sources are shallowly embedded:

* Rust `String` text that the evaluator scans byte-wise (transcripts,
  trigger phrases, evidence quotes) is represented as `List Char`; byte
  offsets are recovered through `Char.utf8Size`, mirroring Rust's UTF-8
  byte indexing.  Opaque text (rule ids, titles, fix texts) stays `String`.
* Rust slicing `s[a..b]` panics when `a > b`, when an index exceeds the
  byte length, or when an index is not a character boundary; this is
  modelled by `byteSlice` returning `none` and by the `EvalResult.crash`
  outcome.
* The `regex` crate is external to the repository; a regex engine is
  modelled as an oracle `RegexOracle` mapping a pattern and a haystack to
  the byte span of the first match (`none` covers both "no match" and
  "pattern failed to compile", which the source skips identically).
* `uuid::Uuid::new_v4()` is modelled as a fixed placeholder string; no
  claim depends on identifier values.
* `str::to_lowercase` is modelled character-wise: exact on ASCII, on
  characters that lowercase to themselves, and on U+0130 (whose lowering
  grows the byte length); other non-ASCII uppercase letters are modelled
  as unchanged.  All catalog text is ASCII, and concrete inputs below only
  use characters on which the model is exact.
-/

namespace Whisperwire

/-- Models Rust `char::is_whitespace` on the ASCII whitespace characters;
non-ASCII whitespace is not exercised by the catalog or by concrete inputs. -/
def rustIsWhitespace (c : Char) : Bool :=
  c.toNat = 32 || c.toNat = 9 || c.toNat = 10 || c.toNat = 13 || c.toNat = 11 || c.toNat = 12

/-- Models the per-character action of Rust `str::to_lowercase`: ASCII
uppercase maps to ASCII lowercase, U+0130 maps to the two-character
sequence U+0069 U+0307 (as in Unicode full case mapping), and every other
modelled character maps to itself. -/
def rustCharLower (c : Char) : List Char :=
  if c = 'İ' then ['i', '̇'] else [Char.toLower c]

/-- Models Rust `str::to_lowercase` (see `rustCharLower`). -/
def rustToLowercase (s : List Char) : List Char :=
  s.flatMap rustCharLower

/-- Rust `str::len`: the UTF-8 byte length. -/
def byteLen (s : List Char) : Nat :=
  (s.map Char.utf8Size).sum

/-- The character index corresponding to byte offset `n`, or `none` when
`n` exceeds the byte length or falls inside a multi-byte character (the
situations where Rust slicing panics). -/
def boundaryIdx : List Char → Nat → Option Nat
  | _, 0 => some 0
  | [], _ + 1 => none
  | c :: cs, n + 1 =>
    if c.utf8Size ≤ n + 1 then (boundaryIdx cs (n + 1 - c.utf8Size)).map (· + 1)
    else none

/-- Rust `&s[a..b]` on byte offsets: `none` models the panic cases. -/
def byteSlice (s : List Char) (a b : Nat) : Option (List Char) :=
  if a ≤ b then
    match boundaryIdx s a, boundaryIdx s b with
    | some i, some j => some ((s.take j).drop i)
    | _, _ => none
  else none

/-- Rust `str::trim`: strip leading and trailing whitespace. -/
def rustTrim (s : List Char) : List Char :=
  ((s.dropWhile rustIsWhitespace).reverse.dropWhile rustIsWhitespace).reverse

/-- First character index at which `needle` occurs in `hay`. -/
def findCharIdx (hay needle : List Char) : Option Nat :=
  if needle.isPrefixOf hay then some 0
  else
    match hay with
    | [] => none
    | _ :: tl => (findCharIdx tl needle).map (· + 1)

/-- Rust `str::find` for a literal needle: the byte offset of the first
occurrence.  Valid UTF-8 is self-synchronising, so every byte-level
occurrence of one string inside another is character-aligned. -/
def rustFind (hay needle : List Char) : Option Nat :=
  (findCharIdx hay needle).map (fun i => byteLen (hay.take i))

/-- Shorthand for turning a Lean string literal into the `List Char`
representation used for scanned text. -/
def chars (s : String) : List Char := s.toList

/-! ## Data model (`rules.rs`, `lib.rs`, `evaluator.rs`) -/

/-- `rules.rs` `RuleCategory`. -/
inductive RuleCategory where
  | callingTime | doNotCall | disclosure | consent
  | identification | recordingDisclosure | prerecorded
deriving DecidableEq

/-- `rules.rs` `Severity`. -/
inductive Severity where
  | low | medium | high
deriving DecidableEq

/-- `rules.rs` `Rule`. -/
structure Rule where
  id : String
  title : String
  category : RuleCategory
  description : String
  severity : Severity
  triggers : List (List Char)
  regex_patterns : List String
  requires_metadata : Bool
  metadata_field : Option String
  why_it_matters : String
  recommended_fix : String
  legal_reference : String
  enabled : Bool
  optional : Bool
deriving DecidableEq

/-- `rules.rs` `RuleSet`. -/
structure RuleSet where
  version : String
  last_updated : String
  disclaimer : String
  rules : List Rule
deriving DecidableEq

/-- `lib.rs` `CallMetadata`. -/
structure CallMetadata where
  call_id : String
  agent_id : String
  agent_name : String
  call_start_time : String
  caller_timezone : Option String
  customer_phone : Option String
  is_dnc_listed : Bool
  has_prior_consent : Bool
  is_prerecorded : Bool
  call_type : String
deriving DecidableEq

/-- `evaluator.rs` `Evidence`. -/
structure Evidence where
  quote : List Char
  start_char : Nat
  end_char : Nat
deriving DecidableEq

/-- `evaluator.rs` `Alert`. -/
structure Alert where
  id : String
  rule_id : String
  title : String
  severity : String
  confidence : Nat
  evidence : Evidence
  why_it_matters : String
  agent_fix_suggestion : String
deriving DecidableEq

/-- `evaluator.rs` `SuggestedLine`. -/
structure SuggestedLine where
  text : String
  confidence : Nat
deriving DecidableEq

/-- `evaluator.rs` `EvaluationOutput`. -/
structure EvaluationOutput where
  alerts : List Alert
  suggested_next_lines : List SuggestedLine
deriving DecidableEq

/-- `evaluator.rs` `DisclosureState`. -/
structure DisclosureState where
  seller_identified : Bool
  sales_purpose_stated : Bool
  product_described : Bool
  callback_provided : Bool
  recording_disclosed : Bool
deriving DecidableEq

/-- `evaluator.rs` `ConversationState`. -/
structure ConversationState where
  dnc_requested : Bool
  consent_revoked : Bool
  disclosures : DisclosureState
  seen_alerts : List String
deriving DecidableEq

/-- `Default::default()` for `DisclosureState`. -/
def DisclosureState.init : DisclosureState :=
  ⟨false, false, false, false, false⟩

/-- `Default::default()` for `ConversationState`. -/
def ConversationState.init : ConversationState :=
  ⟨false, false, DisclosureState.init, []⟩

/-- Outcome of running a fallible Rust function: `ok`/`err` mirror
`Result`, `crash` models a panic (here: out-of-bounds or non-boundary
string slicing). -/
inductive EvalResult (α : Type) where
  | ok : α → EvalResult α
  | err : String → EvalResult α
  | crash : EvalResult α
deriving DecidableEq

/-- Projection of an `EvalResult` onto its success value. -/
def evalOk {α : Type} : EvalResult α → Option α
  | .ok a => some a
  | _ => none

/-- A regex engine oracle: byte span of the first match of the compiled
pattern in the haystack, `none` when the pattern fails to compile or does
not match (the source skips both identically). -/
def RegexOracle : Type := String → List Char → Option (Nat × Nat)

/-- The oracle under which no regex pattern matches. -/
def rfNone : RegexOracle := fun _ _ => none

/-! ## The default rule catalog (`rules.rs::get_default_rules`) -/

/-- `TIME-001` from `rules.rs`. -/
def ruleTIME001 : Rule where
  id := "TIME-001"
  title := "Calling Time Violation"
  category := .callingTime
  description := "Telemarketing calls made outside 8am-9pm in the consumer\x27s local time"
  severity := .high
  triggers := []
  regex_patterns := []
  requires_metadata := true
  metadata_field := some "call_time_local"
  why_it_matters := "The TCPA prohibits telemarketing calls before 8am or after 9pm in the consumer\x27s local time zone. Violations can result in $500-$1,500 per call."
  recommended_fix := "Verify time zone before calling. If outside hours, apologize and offer to call back during appropriate hours."
  legal_reference := "47 U.S.C. § 227(c)(5); 47 C.F.R. § 64.1200(c)(1)"
  enabled := true
  optional := false

/-- `DNC-001` from `rules.rs`. -/
def ruleDNC001 : Rule where
  id := "DNC-001"
  title := "Customer Requested No Further Calls"
  category := .doNotCall
  description := "Customer explicitly requests to stop receiving calls"
  severity := .high
  triggers :=
    [ chars "don\x27t call me"
    , chars "do not call me"
    , chars "stop calling me"
    , chars "remove me from your list"
    , chars "take me off your list"
    , chars "put me on do not call"
    , chars "add me to do not call"
    , chars "no more calls"
    , chars "never call again"
    , chars "stop contacting me" ]
  regex_patterns :=
    [ "(?i)(don\x27?t|do\\s*not|stop|quit|cease)\\s+(call|contact|ring|phone)"
    , "(?i)(remove|take)\\s+(me|my\\s+number)\\s+(from|off)"
    , "(?i)(put|add)\\s+(me|my\\s+number)\\s+(on|to)\\s+(the\\s+)?(do\\s*not\\s*call|dnc)" ]
  requires_metadata := false
  metadata_field := none
  why_it_matters := "Under TCPA, consumers can revoke consent by any reasonable means at any time. Continuing to call after a DNC request is a violation."
  recommended_fix := "Understood—I\x27ll add you to our Do Not Call list effective immediately. You won\x27t receive any more marketing calls from us. Is there anything else I can help you with today?"
  legal_reference := "47 U.S.C. § 227(c); 47 C.F.R. § 64.1200(d)"
  enabled := true
  optional := false

/-- `DNC-002` from `rules.rs`. -/
def ruleDNC002 : Rule where
  id := "DNC-002"
  title := "Agent Continued After DNC Request"
  category := .doNotCall
  description := "Agent attempted to continue sales pitch after customer requested DNC"
  severity := .high
  triggers :=
    [ chars "before you go"
    , chars "just one more thing"
    , chars "let me just tell you"
    , chars "you might want to hear"
    , chars "are you sure"
    , chars "but wait" ]
  regex_patterns :=
    [ "(?i)(before\\s+you\\s+go|just\\s+one\\s+more|let\\s+me\\s+just)"
    , "(?i)(are\\s+you\\s+sure|but\\s+wait|hear\\s+me\\s+out)" ]
  requires_metadata := false
  metadata_field := none
  why_it_matters := "After a DNC request, any attempt to continue selling significantly increases violation risk and demonstrates willful non-compliance."
  recommended_fix := "Do not continue selling. Acknowledge the request, confirm DNC placement, and end the call professionally."
  legal_reference := "47 C.F.R. § 64.1200(d)(3)"
  enabled := true
  optional := false

/-- `DNC-003` from `rules.rs`. -/
def ruleDNC003 : Rule where
  id := "DNC-003"
  title := "National DNC List - No Consent Evidence"
  category := .doNotCall
  description := "Number is on National DNC list and call is marketing without consent evidence"
  severity := .high
  triggers := []
  regex_patterns := []
  requires_metadata := true
  metadata_field := some "is_dnc_listed"
  why_it_matters := "Calling numbers on the National DNC Registry without prior express consent or an established business relationship is a TCPA violation."
  recommended_fix := "If calling a DNC-listed number, ensure you have documented consent or an existing business relationship. If unsure, end the marketing call."
  legal_reference := "47 C.F.R. § 64.1200(c)(2)"
  enabled := true
  optional := false

/-- `DISC-001` from `rules.rs`. -/
def ruleDISC001 : Rule where
  id := "DISC-001"
  title := "Missing Seller Identity Disclosure"
  category := .disclosure
  description := "Agent did not promptly identify the seller/company name"
  severity := .medium
  triggers := []
  regex_patterns :=
    [ "(?i)(calling\\s+(from|on\\s+behalf\\s+of)|this\\s+is|my\\s+name\\s+is.*?(with|from))" ]
  requires_metadata := false
  metadata_field := none
  why_it_matters := "FTC Telemarketing Sales Rule requires prompt disclosure of the seller\x27s identity at the beginning of outbound sales calls."
  recommended_fix := "Hi, my name is [Name] calling from [Company Name]."
  legal_reference := "16 C.F.R. § 310.4(d)(1)"
  enabled := true
  optional := false

/-- `DISC-002` from `rules.rs`. -/
def ruleDISC002 : Rule where
  id := "DISC-002"
  title := "Missing Sales Call Nature Disclosure"
  category := .disclosure
  description := "Agent did not disclose that the call is a sales call"
  severity := .medium
  triggers := []
  regex_patterns :=
    [ "(?i)(sales|marketing|promotion|offer|special\\s+deal|opportunity)" ]
  requires_metadata := false
  metadata_field := none
  why_it_matters := "The TSR requires disclosure that the call is for sales purposes before making the sales pitch."
  recommended_fix := "I\x27m calling today with a special offer for you..."
  legal_reference := "16 C.F.R. § 310.4(d)(2)"
  enabled := true
  optional := false

/-- `DISC-003` from `rules.rs`. -/
def ruleDISC003 : Rule where
  id := "DISC-003"
  title := "Missing Product/Service Description"
  category := .disclosure
  description := "Agent proceeded with pitch without describing what is being sold"
  severity := .low
  triggers := []
  regex_patterns := []
  requires_metadata := false
  metadata_field := none
  why_it_matters := "Consumers should understand what product or service is being offered early in the call."
  recommended_fix := "The reason for my call is to tell you about our [product/service]..."
  legal_reference := "16 C.F.R. § 310.4(d)(3)"
  enabled := true
  optional := false

/-- `CONS-001` from `rules.rs`. -/
def ruleCONS001 : Rule where
  id := "CONS-001"
  title := "Consent Revocation Detected"
  category := .consent
  description := "Consumer appears to be revoking consent by reasonable means"
  severity := .high
  triggers :=
    [ chars "i withdraw my consent"
    , chars "i revoke my consent"
    , chars "i take back my consent"
    , chars "i no longer consent"
    , chars "i didn\x27t agree to this"
    , chars "i never agreed"
    , chars "i want to opt out"
    , chars "opt me out"
    , chars "unsubscribe me" ]
  regex_patterns :=
    [ "(?i)(withdraw|revoke|take\\s+back|cancel)\\s+(my\\s+)?(consent|permission|authorization)"
    , "(?i)(opt|unsubscribe)\\s+(me\\s+)?out"
    , "(?i)(never|didn\x27?t)\\s+(agree|consent|authorize)" ]
  requires_metadata := false
  metadata_field := none
  why_it_matters := "Under TCPA, consumers can revoke consent by any reasonable means. Non-standard wording still constitutes valid revocation."
  recommended_fix := "I understand you\x27d like to revoke your consent. I\x27ll process that right away and you\x27ll be removed from our calling list."
  legal_reference := "47 C.F.R. § 64.1200(a)(7)(ii)"
  enabled := true
  optional := false

/-- `IDENT-001` from `rules.rs`. -/
def ruleIDENT001 : Rule where
  id := "IDENT-001"
  title := "Missing Callback Number"
  category := .identification
  description := "Agent did not provide callback number/address for consumer contact"
  severity := .low
  triggers := []
  regex_patterns :=
    [ "(?i)(call\\s+(us\\s+)?back\\s+at|reach\\s+us\\s+at|our\\s+number\\s+is|contact\\s+us\\s+at)" ]
  requires_metadata := false
  metadata_field := none
  why_it_matters := "Telemarketers must provide a means for consumers to reach the business, typically a callback number."
  recommended_fix := "If you have any questions, you can reach us at [phone number]."
  legal_reference := "16 C.F.R. § 310.4(d)(7)"
  enabled := true
  optional := false

/-- `PREC-001` from `rules.rs`. -/
def rulePREC001 : Rule where
  id := "PREC-001"
  title := "Prerecorded Voice Without Consent"
  category := .prerecorded
  description := "Call using prerecorded/artificial voice without required prior express written consent"
  severity := .high
  triggers := []
  regex_patterns := []
  requires_metadata := true
  metadata_field := some "is_prerecorded"
  why_it_matters := "TCPA requires prior express written consent for prerecorded telemarketing calls to cell phones."
  recommended_fix := "Ensure written consent is obtained and documented before using prerecorded messages for marketing."
  legal_reference := "47 U.S.C. § 227(b)(1)(A)"
  enabled := true
  optional := false

/-- `REC-001` from `rules.rs`. -/
def ruleREC001 : Rule where
  id := "REC-001"
  title := "Missing Recording Disclosure"
  category := .recordingDisclosure
  description := "Call is being recorded without disclosure (jurisdiction-dependent)"
  severity := .medium
  triggers := []
  regex_patterns :=
    [ "(?i)(this\\s+call\\s+(is|may\\s+be)\\s+(being\\s+)?recorded|call\\s+recording|for\\s+quality\\s+(and\\s+training\\s+)?purposes)" ]
  requires_metadata := false
  metadata_field := none
  why_it_matters := "Some states require two-party consent for call recording. This rule is jurisdiction-dependent and should be reviewed with counsel."
  recommended_fix := "This call may be recorded for quality and training purposes. By continuing, you consent to this recording."
  legal_reference := "State-specific wiretapping/recording consent laws"
  enabled := true
  optional := false

/-- `rules.rs::load_default`. -/
def defaultRuleSet : RuleSet where
  version := "1.0.0"
  last_updated := "2026-01-16"
  disclaimer := "This tool provides compliance risk signals only. It is NOT legal advice. Compliance requirements depend on jurisdiction and require legal counsel review. Always consult with qualified legal professionals for compliance decisions."
  rules :=
    [ ruleTIME001, ruleDNC001, ruleDNC002, ruleDNC003, ruleDISC001
    , ruleDISC002, ruleDISC003, ruleCONS001, ruleIDENT001, rulePREC001
    , ruleREC001 ]

/-! ## The deterministic evaluator (`evaluator.rs`) -/

/-- Models `uuid::Uuid::new_v4().to_string()`; no claim depends on the
generated identifier values. -/
def uuidNewV4 : String := "00000000-0000-4000-8000-000000000000"

/-- `evaluator.rs::severity_to_string`. -/
def severity_to_string : Severity → String
  | .low => "low"
  | .medium => "medium"
  | .high => "high"

/-- `ComplianceEvaluator::check_metadata_rule`. -/
def check_metadata_rule (m : CallMetadata) (r : Rule) : EvalResult (Option Alert) :=
  if r.id = "TIME-001" then .ok none
  else if r.id = "DNC-003" then
    if m.is_dnc_listed && !m.has_prior_consent then
      .ok (some
        { id := uuidNewV4
          rule_id := r.id
          title := r.title
          severity := severity_to_string r.severity
          confidence := 95
          evidence :=
            { quote := chars "Number is on National DNC Registry (metadata flag)"
              start_char := 0
              end_char := 0 }
          why_it_matters := r.why_it_matters
          agent_fix_suggestion := r.recommended_fix })
    else .ok none
  else if r.id = "PREC-001" then
    if m.is_prerecorded && !m.has_prior_consent then
      .ok (some
        { id := uuidNewV4
          rule_id := r.id
          title := r.title
          severity := severity_to_string r.severity
          confidence := 95
          evidence :=
            { quote := chars "Using prerecorded/artificial voice without consent (metadata flag)"
              start_char := 0
              end_char := 0 }
          why_it_matters := r.why_it_matters
          agent_fix_suggestion := r.recommended_fix })
    else .ok none
  else .ok none

/-- The trigger loop of `check_rule` (lines 155-157): first trigger phrase,
in declared order, whose lowercasing occurs in the lowercased transcript,
with the byte offset of the occurrence.  The Rust loop returns from the
function on the first hit, so the hit determines the rest of the scan. -/
def firstTriggerMatch (tl : List Char) : List (List Char) → Option (List Char × Nat)
  | [] => none
  | trig :: rest =>
    match rustFind tl (rustToLowercase trig) with
    | some pos => some (trig, pos)
    | none => firstTriggerMatch tl rest

/-- The regex loop of `check_rule` (lines 195-197): first pattern, in
declared order, that compiles and matches the lowercased transcript. -/
def firstRegexMatch (rf : RegexOracle) (tl : List Char) : List String → Option (Nat × Nat)
  | [] => none
  | p :: rest =>
    match rf p tl with
    | some se => some se
    | none => firstRegexMatch rf tl rest

/-- Body of the trigger-phrase hit in `check_rule` (lines 158-191). -/
def checkTriggerHit (t : List Char) (r : Rule) (st : ConversationState)
    (trig : List Char) (pos : Nat) : EvalResult (Option Alert × ConversationState) :=
  let end_pos := pos + byteLen trig
  let context_end := min (end_pos + 30) (byteLen t)
  match byteSlice t pos context_end with
  | none => .crash
  | some sl =>
    let quote := rustTrim sl
    let st1 := if r.id = "DNC-001" then { st with dnc_requested := true } else st
    if r.id = "DNC-002" ∧ st1.dnc_requested = false then .ok (none, st1)
    else
      let st2 := if r.id = "CONS-001" then { st1 with consent_revoked := true } else st1
      .ok (some
        { id := uuidNewV4
          rule_id := r.id
          title := r.title
          severity := severity_to_string r.severity
          confidence := 90
          evidence := { quote := quote, start_char := pos, end_char := end_pos }
          why_it_matters := r.why_it_matters
          agent_fix_suggestion := r.recommended_fix }, st2)

/-- Body of the regex hit in `check_rule` (lines 197-255). -/
def checkRegexHit (t : List Char) (r : Rule) (st : ConversationState)
    (ms me : Nat) : EvalResult (Option Alert × ConversationState) :=
  let context_end := min (me + 20) (byteLen t)
  match byteSlice t ms context_end with
  | none => .crash
  | some sl =>
    let quote := rustTrim sl
    let st1 := if r.id = "DNC-001" then { st with dnc_requested := true } else st
    if r.id = "DNC-002" ∧ st1.dnc_requested = false then .ok (none, st1)
    else
      let st2 := if r.id = "CONS-001" then { st1 with consent_revoked := true } else st1
      if r.id = "DISC-001" then
        .ok (none, { st2 with disclosures := { st2.disclosures with seller_identified := true } })
      else if r.id = "DISC-002" then
        .ok (none, { st2 with disclosures := { st2.disclosures with sales_purpose_stated := true } })
      else if r.id = "DISC-003" then
        .ok (none, { st2 with disclosures := { st2.disclosures with product_described := true } })
      else if r.id = "IDENT-001" then
        .ok (none, { st2 with disclosures := { st2.disclosures with callback_provided := true } })
      else if r.id = "REC-001" then
        .ok (none, { st2 with disclosures := { st2.disclosures with recording_disclosed := true } })
      else
        .ok (some
          { id := uuidNewV4
            rule_id := r.id
            title := r.title
            severity := severity_to_string r.severity
            confidence := 85
            evidence := { quote := quote, start_char := ms, end_char := me }
            why_it_matters := r.why_it_matters
            agent_fix_suggestion := r.recommended_fix }, st2)

/-- `ComplianceEvaluator::check_rule`; the `&mut ConversationState` is made
explicit state passing. -/
def check_rule (m : CallMetadata) (t tl : List Char) (rf : RegexOracle)
    (r : Rule) (st : ConversationState) : EvalResult (Option Alert × ConversationState) :=
  if r.requires_metadata then
    match check_metadata_rule m r with
    | .ok res => .ok (res, st)
    | .err e => .err e
    | .crash => .crash
  else
    match firstTriggerMatch tl r.triggers with
    | some (trig, pos) => checkTriggerHit t r st trig pos
    | none =>
      match firstRegexMatch rf tl r.regex_patterns with
      | some (ms, me) => checkRegexHit t r st ms me
      | none => .ok (none, st)

/-- The per-rule loop of `ComplianceEvaluator::evaluate` (lines 94-113),
threading the alert and suggestion vectors and the conversation state. -/
def processRules (m : CallMetadata) (t tl : List Char) (rf : RegexOracle) :
    List Rule → List Alert → List SuggestedLine → ConversationState →
    EvalResult (List Alert × List SuggestedLine × ConversationState)
  | [], as, ss, st => .ok (as, ss, st)
  | r :: rest, as, ss, st =>
    if r.id ∈ st.seen_alerts then processRules m t tl rf rest as ss st
    else
      match check_rule m t tl rf r st with
      | .crash => .crash
      | .err e => .err e
      | .ok (none, st') => processRules m t tl rf rest as ss st'
      | .ok (some a, st') =>
        processRules m t tl rf rest (as ++ [a])
          (if ¬(r.recommended_fix = "") then ss ++ [⟨r.recommended_fix, 85⟩] else ss)
          { st' with seen_alerts := st'.seen_alerts ++ [a.rule_id] }

/-- The generic contextual suggestion for a missing seller identification
(`evaluator.rs` line 119). -/
def identifySuggestionText : String :=
  "Identify yourself and your company: \x27Hi, my name is [Name] calling from [Company Name].\x27"

/-- The generic contextual suggestion for a missing sales-purpose
disclosure (`evaluator.rs` line 126). -/
def salesSuggestionText : String :=
  "Disclose the sales purpose: \x27I\x27m calling today with a special offer for you.\x27"

/-- The contextual-suggestion step of `evaluate` (lines 115-130), applied
to the post-pass conversation state. -/
def contextualExtend (m : CallMetadata) (t : List Char) (st : ConversationState)
    (ss : List SuggestedLine) : List SuggestedLine :=
  if m.call_type = "outbound_sales" ∧ byteLen t > 100 then
    let ss1 := if st.disclosures.seller_identified = false
      then ss ++ [⟨identifySuggestionText, 80⟩] else ss
    if st.disclosures.sales_purpose_stated = false
      then ss1 ++ [⟨salesSuggestionText, 80⟩] else ss1
  else ss

/-- `ComplianceEvaluator::evaluate`, with the mutex-guarded state made an
explicit input/output. -/
def evaluate (m : CallMetadata) (t : List Char) (rs : RuleSet) (rf : RegexOracle)
    (st : ConversationState) : EvalResult (EvaluationOutput × ConversationState) :=
  let tl := rustToLowercase t
  let enabled := rs.rules.filter (·.enabled)
  match processRules m t tl rf enabled [] [] st with
  | .crash => .crash
  | .err e => .err e
  | .ok (as, ss, st') =>
    .ok ({ alerts := as, suggested_next_lines := (contextualExtend m t st' ss).take 3 }, st')

/-- `ComplianceEvaluator::reset`. -/
def reset (_ : ConversationState) : ConversationState :=
  ConversationState.init

/-! ## Hosted evaluator contract and orchestrator (`llm.rs`, `lib.rs`) -/

/-- `llm.rs` `LlmEvidence`. -/
structure LlmEvidence where
  quote : List Char
  start_char : Nat
  end_char : Nat
deriving DecidableEq

/-- `llm.rs` `LlmAlert`. -/
structure LlmAlert where
  rule_id : String
  title : String
  severity : String
  confidence : Nat
  evidence : LlmEvidence
  why_it_matters : String
  agent_fix_suggestion : String
deriving DecidableEq

/-- `llm.rs` `LlmSuggestion`. -/
structure LlmSuggestion where
  text : String
  confidence : Nat
deriving DecidableEq

/-- `llm.rs` `LlmResponse`. -/
structure LlmResponse where
  alerts : List LlmAlert
  suggested_next_lines : List LlmSuggestion
deriving DecidableEq

/-- `lib.rs` `EvaluationResult` (returned to the frontend). -/
structure EvaluationResult where
  alerts : List Alert
  suggested_next_lines : List SuggestedLine
  evaluation_time_ms : Nat
  llm_used : Bool
deriving DecidableEq

/-- The alert normalisation in `evaluate_transcript` (lines 122-135). -/
def convertLlmAlert (a : LlmAlert) : Alert where
  id := uuidNewV4
  rule_id := a.rule_id
  title := a.title
  severity := a.severity
  confidence := a.confidence
  evidence :=
    { quote := a.evidence.quote
      start_char := a.evidence.start_char
      end_char := a.evidence.end_char }
  why_it_matters := a.why_it_matters
  agent_fix_suggestion := a.agent_fix_suggestion

/-- `lib.rs::evaluate_transcript`, the orchestrator.  The awaited outcome
of `LlmClient::evaluate` is an explicit input `llm_outcome` (`Err` covers
transport failure, a non-success status, an unparsable body, and the
client not being enabled, exactly the `Err` cases of `llm.rs` lines
181-227); the wall-clock measurement is the explicit input `elapsed_ms`. -/
def evaluate_transcript (m : CallMetadata) (t : List Char) (use_llm llm_enabled : Bool)
    (llm_outcome : Except String LlmResponse) (rs : RuleSet) (rf : RegexOracle)
    (elapsed_ms : Nat) (st : ConversationState) :
    EvalResult (EvaluationResult × ConversationState) :=
  let should_use_llm := use_llm && llm_enabled
  if should_use_llm then
    match llm_outcome with
    | .ok lr =>
      .ok ({ alerts := lr.alerts.map convertLlmAlert
             suggested_next_lines := lr.suggested_next_lines.map (fun s => ⟨s.text, s.confidence⟩)
             evaluation_time_ms := elapsed_ms
             llm_used := should_use_llm }, st)
    | .error _ =>
      match evaluate m t rs rf st with
      | .ok (out, st') =>
        .ok ({ alerts := out.alerts
               suggested_next_lines := out.suggested_next_lines
               evaluation_time_ms := elapsed_ms
               llm_used := should_use_llm }, st')
      | .err e => .err e
      | .crash => .crash
  else
    match evaluate m t rs rf st with
    | .ok (out, st') =>
      .ok ({ alerts := out.alerts
             suggested_next_lines := out.suggested_next_lines
             evaluation_time_ms := elapsed_ms
             llm_used := should_use_llm }, st')
    | .err e => .err e
    | .crash => .crash


def MonoLe (s₁ s₂ : ConversationState) : Prop :=
  (s₁.dnc_requested = true → s₂.dnc_requested = true) ∧
  (s₁.consent_revoked = true → s₂.consent_revoked = true) ∧
  (s₁.disclosures.seller_identified = true → s₂.disclosures.seller_identified = true) ∧
  (s₁.disclosures.sales_purpose_stated = true → s₂.disclosures.sales_purpose_stated = true) ∧
  (s₁.disclosures.product_described = true → s₂.disclosures.product_described = true) ∧
  (s₁.disclosures.callback_provided = true → s₂.disclosures.callback_provided = true) ∧
  (s₁.disclosures.recording_disclosed = true → s₂.disclosures.recording_disclosed = true)

theorem MonoLe.rfl (s : ConversationState) : MonoLe s s :=
  ⟨id, id, id, id, id, id, id⟩

theorem MonoLe.trans {s₁ s₂ s₃ : ConversationState}
    (h₁ : MonoLe s₁ s₂) (h₂ : MonoLe s₂ s₃) : MonoLe s₁ s₃ :=
  ⟨fun h => h₂.1 (h₁.1 h), fun h => h₂.2.1 (h₁.2.1 h),
   fun h => h₂.2.2.1 (h₁.2.2.1 h), fun h => h₂.2.2.2.1 (h₁.2.2.2.1 h),
   fun h => h₂.2.2.2.2.1 (h₁.2.2.2.2.1 h), fun h => h₂.2.2.2.2.2.1 (h₁.2.2.2.2.2.1 h),
   fun h => h₂.2.2.2.2.2.2 (h₁.2.2.2.2.2.2 h)⟩

theorem checkTriggerHit_ok {t : List Char} {r : Rule} {st : ConversationState}
    {trig : List Char} {pos : Nat} {res : Option Alert} {s' : ConversationState}
    (h : checkTriggerHit t r st trig pos = .ok (res, s')) :
    s'.seen_alerts = st.seen_alerts ∧ s'.disclosures = st.disclosures ∧
    (st.dnc_requested = true → s'.dnc_requested = true) ∧
    (st.consent_revoked = true → s'.consent_revoked = true) ∧
    (s'.dnc_requested = true → st.dnc_requested = true ∨ (r.id = "DNC-001" ∧ ∃ a, res = some a)) ∧
    (∀ a, res = some a → a.rule_id = r.id ∧ a.confidence = 90 ∧
      a.agent_fix_suggestion = r.recommended_fix ∧
      ∃ sl, byteSlice t pos (min (pos + byteLen trig + 30) (byteLen t)) = some sl ∧
        a.evidence = ⟨rustTrim sl, pos, pos + byteLen trig⟩) ∧
    (r.id = "DNC-002" → st.dnc_requested = true → ∃ a, res = some a) ∧
    (r.id = "DNC-002" → ∀ a, res = some a → st.dnc_requested = true ∧ s' = st) ∧
    (r.id = "DNC-001" → s'.dnc_requested = true) := by
  unfold checkTriggerHit at h
  dsimp only at h
  cases hsl : byteSlice t pos (min (pos + byteLen trig + 30) (byteLen t)) with
  | none => rw [hsl] at h; exact absurd h (by simp)
  | some sl =>
    rw [hsl] at h
    dsimp only at h
    by_cases h1 : r.id = "DNC-001"
    · simp only [h1, String.reduceEq, reduceIte, false_and, if_false] at h
      cases h
      refine ⟨rfl, rfl, fun _ => rfl, id, fun _ => Or.inr ⟨h1, _, rfl⟩, ?_,
        fun hh => absurd hh (by rw [h1]; decide), fun hh => absurd hh (by rw [h1]; decide),
        fun _ => rfl⟩
      intro a ha
      cases ha
      exact ⟨h1.symm, rfl, rfl, sl, rfl, rfl⟩
    · by_cases h2 : r.id = "DNC-002"
      · simp only [h2, String.reduceEq, reduceIte, true_and] at h
        split at h
        · rename_i hg
          cases h
          refine ⟨rfl, rfl, id, id, fun hx => Or.inl hx, ?_, ?_, ?_,
            fun hh => absurd hh (by rw [h2]; decide)⟩
          · intro a ha; exact absurd ha (by simp)
          · intro _ hx; rw [hx] at hg; exact absurd hg (by decide)
          · intro _ a ha; exact absurd ha (by simp)
        · rename_i hg
          cases h
          have hd : st.dnc_requested = true := by
            cases hv : st.dnc_requested
            · exact absurd hv hg
            · rfl
          refine ⟨rfl, rfl, id, id, fun _ => Or.inl hd, ?_, ?_, ?_,
            fun hh => absurd hh (by rw [h2]; decide)⟩
          · intro a ha
            cases ha
            exact ⟨h2.symm, rfl, rfl, sl, rfl, rfl⟩
          · intro _ _; exact ⟨_, rfl⟩
          · intro _ a _; exact ⟨hd, rfl⟩
      · by_cases h3 : r.id = "CONS-001"
        · simp only [h3, String.reduceEq, reduceIte, false_and, if_false] at h
          cases h
          refine ⟨rfl, rfl, id, fun _ => rfl, fun hx => Or.inl hx, ?_,
            fun hh => absurd hh (by rw [h3]; decide), fun hh => absurd hh (by rw [h3]; decide),
            fun hh => absurd hh (by rw [h3]; decide)⟩
          intro a ha
          cases ha
          exact ⟨h3.symm, rfl, rfl, sl, rfl, rfl⟩
        · rw [if_neg h1, if_neg (fun hh : r.id = "DNC-002" ∧ _ => h2 hh.1), if_neg h3] at h
          cases h
          refine ⟨rfl, rfl, id, id, fun hx => Or.inl hx, ?_, fun hh => absurd hh h2,
            fun hh => absurd hh h2, fun hh => absurd hh h1⟩
          intro a ha
          cases ha
          exact ⟨rfl, rfl, rfl, sl, rfl, rfl⟩


/-- Characterisation of a successful regex hit, covering the disclosure
detectors: fired-set untouched, flags only grow, disclosure-detector ids
never alert and set their flag, other alerts carry the rule id and
confidence 85, and `DNC-002` alerts demand the gate. -/
theorem checkRegexHit_ok {t : List Char} {r : Rule} {st : ConversationState}
    {ms me : Nat} {res : Option Alert} {s' : ConversationState}
    (h : checkRegexHit t r st ms me = .ok (res, s')) :
    s'.seen_alerts = st.seen_alerts ∧
    (st.dnc_requested = true → s'.dnc_requested = true) ∧
    (st.consent_revoked = true → s'.consent_revoked = true) ∧
    (st.disclosures.seller_identified = true → s'.disclosures.seller_identified = true) ∧
    (st.disclosures.sales_purpose_stated = true → s'.disclosures.sales_purpose_stated = true) ∧
    (st.disclosures.product_described = true → s'.disclosures.product_described = true) ∧
    (st.disclosures.callback_provided = true → s'.disclosures.callback_provided = true) ∧
    (st.disclosures.recording_disclosed = true → s'.disclosures.recording_disclosed = true) ∧
    (s'.dnc_requested = true → st.dnc_requested = true ∨ (r.id = "DNC-001" ∧ ∃ a, res = some a)) ∧
    (∀ a, res = some a → a.rule_id = r.id ∧ a.confidence = 85 ∧
      a.agent_fix_suggestion = r.recommended_fix ∧
      ∃ sl, byteSlice t ms (min (me + 20) (byteLen t)) = some sl ∧
        a.evidence = ⟨rustTrim sl, ms, me⟩) ∧
    (r.id = "DNC-002" → st.dnc_requested = true → ∃ a, res = some a) ∧
    (r.id = "DNC-002" → ∀ a, res = some a → st.dnc_requested = true ∧ s' = st) ∧
    (r.id = "DISC-001" → res = none ∧ s'.disclosures.seller_identified = true) ∧
    (r.id = "DISC-002" → res = none ∧ s'.disclosures.sales_purpose_stated = true) ∧
    (r.id = "DISC-003" → res = none ∧ s'.disclosures.product_described = true) ∧
    (r.id = "IDENT-001" → res = none ∧ s'.disclosures.callback_provided = true) ∧
    (r.id = "REC-001" → res = none ∧ s'.disclosures.recording_disclosed = true) ∧
    (r.id = "DNC-001" → s'.dnc_requested = true) := by
  unfold checkRegexHit at h
  dsimp only at h
  cases hsl : byteSlice t ms (min (me + 20) (byteLen t)) with
  | none => rw [hsl] at h; exact absurd h (by simp)
  | some sl =>
    rw [hsl] at h
    dsimp only at h
    by_cases h1 : r.id = "DNC-001"
    · simp only [h1, String.reduceEq, reduceIte, false_and, if_false] at h
      cases h
      refine ⟨rfl, fun _ => rfl, id, id, id, id, id, id, fun _ => Or.inr ⟨h1, _, rfl⟩, ?_,
        fun hh => absurd hh (by rw [h1]; decide), fun hh => absurd hh (by rw [h1]; decide),
        fun hh => absurd hh (by rw [h1]; decide), fun hh => absurd hh (by rw [h1]; decide),
        fun hh => absurd hh (by rw [h1]; decide), fun hh => absurd hh (by rw [h1]; decide),
        fun hh => absurd hh (by rw [h1]; decide), fun _ => rfl⟩
      intro a ha
      cases ha
      exact ⟨h1.symm, rfl, rfl, sl, rfl, rfl⟩
    · by_cases h2 : r.id = "DNC-002"
      · simp only [h2, String.reduceEq, reduceIte, true_and] at h
        split at h
        · rename_i hg
          cases h
          refine ⟨rfl, id, id, id, id, id, id, id, fun hx => Or.inl hx, ?_, ?_, ?_,
            fun hh => absurd hh (by rw [h2]; decide), fun hh => absurd hh (by rw [h2]; decide),
            fun hh => absurd hh (by rw [h2]; decide), fun hh => absurd hh (by rw [h2]; decide),
            fun hh => absurd hh (by rw [h2]; decide), fun hh => absurd hh (by rw [h2]; decide)⟩
          · intro a ha; exact absurd ha (by simp)
          · intro _ hx; rw [hx] at hg; exact absurd hg (by decide)
          · intro _ a ha; exact absurd ha (by simp)
        · rename_i hg
          cases h
          have hd : st.dnc_requested = true := by
            cases hv : st.dnc_requested
            · exact absurd hv hg
            · rfl
          refine ⟨rfl, id, id, id, id, id, id, id, fun _ => Or.inl hd, ?_, ?_, ?_,
            fun hh => absurd hh (by rw [h2]; decide), fun hh => absurd hh (by rw [h2]; decide),
            fun hh => absurd hh (by rw [h2]; decide), fun hh => absurd hh (by rw [h2]; decide),
            fun hh => absurd hh (by rw [h2]; decide), fun hh => absurd hh (by rw [h2]; decide)⟩
          · intro a ha
            cases ha
            exact ⟨h2.symm, rfl, rfl, sl, rfl, rfl⟩
          · intro _ _; exact ⟨_, rfl⟩
          · intro _ a _; exact ⟨hd, rfl⟩
      · by_cases h3 : r.id = "CONS-001"
        · simp only [h3, String.reduceEq, reduceIte, false_and, if_false] at h
          cases h
          refine ⟨rfl, id, fun _ => rfl, id, id, id, id, id, fun hx => Or.inl hx, ?_,
            fun hh => absurd hh (by rw [h3]; decide), fun hh => absurd hh (by rw [h3]; decide),
            fun hh => absurd hh (by rw [h3]; decide), fun hh => absurd hh (by rw [h3]; decide),
            fun hh => absurd hh (by rw [h3]; decide), fun hh => absurd hh (by rw [h3]; decide),
            fun hh => absurd hh (by rw [h3]; decide), fun hh => absurd hh (by rw [h3]; decide)⟩
          intro a ha
          cases ha
          exact ⟨h3.symm, rfl, rfl, sl, rfl, rfl⟩
        · by_cases d1 : r.id = "DISC-001"
          · simp only [d1, String.reduceEq, reduceIte, false_and, if_false] at h
            cases h
            refine ⟨rfl, id, id, fun _ => rfl, id, id, id, id, fun hx => Or.inl hx,
              fun a ha => absurd ha (by simp),
              fun hh => absurd hh (by rw [d1]; decide), fun hh => absurd hh (by rw [d1]; decide),
              fun _ => ⟨rfl, rfl⟩,
              fun hh => absurd hh (by rw [d1]; decide), fun hh => absurd hh (by rw [d1]; decide),
              fun hh => absurd hh (by rw [d1]; decide), fun hh => absurd hh (by rw [d1]; decide),
              fun hh => absurd hh (by rw [d1]; decide)⟩
          · by_cases d2 : r.id = "DISC-002"
            · simp only [d2, String.reduceEq, reduceIte, false_and, if_false] at h
              cases h
              refine ⟨rfl, id, id, id, fun _ => rfl, id, id, id, fun hx => Or.inl hx,
                fun a ha => absurd ha (by simp),
                fun hh => absurd hh (by rw [d2]; decide), fun hh => absurd hh (by rw [d2]; decide),
                fun hh => absurd hh (by rw [d2]; decide),
                fun _ => ⟨rfl, rfl⟩,
                fun hh => absurd hh (by rw [d2]; decide), fun hh => absurd hh (by rw [d2]; decide),
                fun hh => absurd hh (by rw [d2]; decide), fun hh => absurd hh (by rw [d2]; decide)⟩
            · by_cases d3 : r.id = "DISC-003"
              · simp only [d3, String.reduceEq, reduceIte, false_and, if_false] at h
                cases h
                refine ⟨rfl, id, id, id, id, fun _ => rfl, id, id, fun hx => Or.inl hx,
                  fun a ha => absurd ha (by simp),
                  fun hh => absurd hh (by rw [d3]; decide), fun hh => absurd hh (by rw [d3]; decide),
                  fun hh => absurd hh (by rw [d3]; decide), fun hh => absurd hh (by rw [d3]; decide),
                  fun _ => ⟨rfl, rfl⟩,
                  fun hh => absurd hh (by rw [d3]; decide), fun hh => absurd hh (by rw [d3]; decide),
                  fun hh => absurd hh (by rw [d3]; decide)⟩
              · by_cases d4 : r.id = "IDENT-001"
                · simp only [d4, String.reduceEq, reduceIte, false_and, if_false] at h
                  cases h
                  refine ⟨rfl, id, id, id, id, id, fun _ => rfl, id, fun hx => Or.inl hx,
                    fun a ha => absurd ha (by simp),
                    fun hh => absurd hh (by rw [d4]; decide), fun hh => absurd hh (by rw [d4]; decide),
                    fun hh => absurd hh (by rw [d4]; decide), fun hh => absurd hh (by rw [d4]; decide),
                    fun hh => absurd hh (by rw [d4]; decide),
                    fun _ => ⟨rfl, rfl⟩,
                    fun hh => absurd hh (by rw [d4]; decide), fun hh => absurd hh (by rw [d4]; decide)⟩
                · by_cases d5 : r.id = "REC-001"
                  · simp only [d5, String.reduceEq, reduceIte, false_and, if_false] at h
                    cases h
                    refine ⟨rfl, id, id, id, id, id, id, fun _ => rfl, fun hx => Or.inl hx,
                      fun a ha => absurd ha (by simp),
                      fun hh => absurd hh (by rw [d5]; decide), fun hh => absurd hh (by rw [d5]; decide),
                      fun hh => absurd hh (by rw [d5]; decide), fun hh => absurd hh (by rw [d5]; decide),
                      fun hh => absurd hh (by rw [d5]; decide), fun hh => absurd hh (by rw [d5]; decide),
                      fun _ => ⟨rfl, rfl⟩, fun hh => absurd hh (by rw [d5]; decide)⟩
                  · rw [if_neg h1, if_neg (fun hh : r.id = "DNC-002" ∧ _ => h2 hh.1), if_neg h3,
                      if_neg d1, if_neg d2, if_neg d3, if_neg d4, if_neg d5] at h
                    cases h
                    refine ⟨rfl, id, id, id, id, id, id, id, fun hx => Or.inl hx, ?_,
                      fun hh => absurd hh h2, fun hh => absurd hh h2, fun hh => absurd hh d1,
                      fun hh => absurd hh d2, fun hh => absurd hh d3, fun hh => absurd hh d4,
                      fun hh => absurd hh d5, fun hh => absurd hh h1⟩
                    intro a ha
                    cases ha
                    exact ⟨rfl, rfl, rfl, sl, rfl, rfl⟩


/-- `check_metadata_rule` never fails. -/
theorem check_metadata_rule_total (m : CallMetadata) (r : Rule) :
    ∃ res, check_metadata_rule m r = .ok res := by
  unfold check_metadata_rule
  split
  · exact ⟨_, rfl⟩
  · split
    · split
      · exact ⟨_, rfl⟩
      · exact ⟨_, rfl⟩
    · split
      · split
        · exact ⟨_, rfl⟩
        · exact ⟨_, rfl⟩
      · exact ⟨_, rfl⟩

/-- What a metadata-rule alert must look like: only `DNC-003` (on
`is_dnc_listed ∧ ¬has_prior_consent`) and `PREC-001` (on
`is_prerecorded ∧ ¬has_prior_consent`) ever alert, with confidence 95,
a fixed quote, and zero offsets. -/
theorem check_metadata_rule_some {m : CallMetadata} {r : Rule} {a : Alert}
    (h : check_metadata_rule m r = .ok (some a)) :
    a.rule_id = r.id ∧ a.confidence = 95 ∧ a.agent_fix_suggestion = r.recommended_fix ∧
    a.evidence.start_char = 0 ∧ a.evidence.end_char = 0 ∧
    ((r.id = "DNC-003" ∧ m.is_dnc_listed = true ∧ m.has_prior_consent = false ∧
        a.evidence.quote = chars "Number is on National DNC Registry (metadata flag)") ∨
     (r.id = "PREC-001" ∧ m.is_prerecorded = true ∧ m.has_prior_consent = false ∧
        a.evidence.quote = chars "Using prerecorded/artificial voice without consent (metadata flag)")) := by
  unfold check_metadata_rule at h
  split at h
  · exact absurd h (by simp)
  · rename_i hn1
    split at h
    · rename_i hid
      split at h
      · rename_i hflags
        cases h
        rw [Bool.and_eq_true, Bool.not_eq_eq_eq_not, Bool.not_true] at hflags
        exact ⟨rfl, rfl, rfl, rfl, rfl, Or.inl ⟨hid, hflags.1, hflags.2, rfl⟩⟩
      · exact absurd h (by simp)
    · rename_i hn2
      split at h
      · rename_i hid
        split at h
        · rename_i hflags
          cases h
          rw [Bool.and_eq_true, Bool.not_eq_eq_eq_not, Bool.not_true] at hflags
          exact ⟨rfl, rfl, rfl, rfl, rfl, Or.inr ⟨hid, hflags.1, hflags.2, rfl⟩⟩
        · exact absurd h (by simp)
      · exact absurd h (by simp)

/-- `TIME-001` never alerts. -/
theorem check_metadata_rule_time (m : CallMetadata) {r : Rule} (hid : r.id = "TIME-001") :
    check_metadata_rule m r = .ok none := by
  unfold check_metadata_rule
  rw [if_pos hid]

/-- `DNC-003` alerts whenever its metadata condition holds. -/
theorem check_metadata_rule_dnc3 (m : CallMetadata) {r : Rule} (hid : r.id = "DNC-003")
    (h1 : m.is_dnc_listed = true) (h2 : m.has_prior_consent = false) :
    ∃ a, check_metadata_rule m r = .ok (some a) := by
  unfold check_metadata_rule
  rw [if_neg (by rw [hid]; decide), if_pos hid, if_pos (by rw [h1, h2]; rfl)]
  exact ⟨_, rfl⟩

/-- `PREC-001` alerts whenever its metadata condition holds. -/
theorem check_metadata_rule_prec (m : CallMetadata) {r : Rule} (hid : r.id = "PREC-001")
    (h1 : m.is_prerecorded = true) (h2 : m.has_prior_consent = false) :
    ∃ a, check_metadata_rule m r = .ok (some a) := by
  unfold check_metadata_rule
  rw [if_neg (by rw [hid]; decide), if_neg (by rw [hid]; decide), if_pos hid,
    if_pos (by rw [h1, h2]; rfl)]
  exact ⟨_, rfl⟩

/-- Master characterisation of a non-failing `check_rule` call, collecting
everything the per-rule loop inductions need. -/
theorem check_rule_ok {m : CallMetadata} {t tl : List Char} {rf : RegexOracle}
    {r : Rule} {st : ConversationState} {res : Option Alert} {s' : ConversationState}
    (h : check_rule m t tl rf r st = .ok (res, s')) :
    s'.seen_alerts = st.seen_alerts ∧ MonoLe st s' ∧
    (s'.dnc_requested = true → st.dnc_requested = true ∨ (r.id = "DNC-001" ∧ ∃ a, res = some a)) ∧
    (∀ a, res = some a → a.rule_id = r.id) ∧
    (r.id = "DNC-001" → ∀ a, res = some a → s'.dnc_requested = true) ∧
    (r.id = "DNC-002" → ∀ a, res = some a → st.dnc_requested = true ∧ s' = st) := by
  unfold check_rule at h
  split at h
  · -- metadata branch
    rcases check_metadata_rule_total m r with ⟨res₀, hres⟩
    rw [hres] at h
    cases h
    refine ⟨rfl, MonoLe.rfl st, fun hx => Or.inl hx, ?_, ?_, ?_⟩
    · intro a ha
      rw [ha] at hres
      exact (check_metadata_rule_some hres).1
    · intro hid a ha
      rw [ha] at hres
      rcases (check_metadata_rule_some hres).2.2.2.2.2 with ⟨hid2, _⟩ | ⟨hid2, _⟩ <;>
        rw [hid] at hid2 <;> exact absurd hid2 (by decide)
    · intro hid a ha
      rw [ha] at hres
      rcases (check_metadata_rule_some hres).2.2.2.2.2 with ⟨hid2, _⟩ | ⟨hid2, _⟩ <;>
        rw [hid] at hid2 <;> exact absurd hid2 (by decide)
  · split at h
    · -- trigger branch
      obtain ⟨hseen, hdisc, hdnc, hcons, hprov, hsome, _, hgate, hflag⟩ := checkTriggerHit_ok h
      refine ⟨hseen, ⟨hdnc, hcons, ?_, ?_, ?_, ?_, ?_⟩, hprov, fun a ha => (hsome a ha).1,
        fun hid a _ => hflag hid, hgate⟩
      · rw [hdisc]; exact id
      · rw [hdisc]; exact id
      · rw [hdisc]; exact id
      · rw [hdisc]; exact id
      · rw [hdisc]; exact id
    · split at h
      · -- regex branch
        obtain ⟨hseen, hdnc, hcons, hm1, hm2, hm3, hm4, hm5, hprov, hsome, _, hgate,
          _, _, _, _, _, hflag⟩ := checkRegexHit_ok h
        exact ⟨hseen, ⟨hdnc, hcons, hm1, hm2, hm3, hm4, hm5⟩, hprov,
          fun a ha => (hsome a ha).1, fun hid a _ => hflag hid, hgate⟩
      · cases h
        exact ⟨rfl, MonoLe.rfl st, fun hx => Or.inl hx, fun a ha => absurd ha (by simp),
          fun _ a ha => absurd ha (by simp), fun _ a ha => absurd ha (by simp)⟩


/-- `MonoLe` is preserved when only the fired-set is extended. -/
theorem MonoLe.seen (s : ConversationState) (x : List String) :
    MonoLe s { s with seen_alerts := x } :=
  ⟨id, id, id, id, id, id, id⟩

/-- Master induction over the per-rule loop: a successful pass appends a
block of fresh alerts and suggestions, records exactly the new alert ids
in the fired-set, only grows the flags, produces pairwise-distinct new
rule ids none of which was already fired, derives every suggestion from
some rule's `recommended_fix` with confidence 85, attributes every new
alert to a `check_rule` call from an intermediate state dominating the
entry state, and ties the DNC flag of every state to `DNC-001` alerts. -/
theorem processRules_ok {m : CallMetadata} {t tl : List Char} {rf : RegexOracle} :
    ∀ {l : List Rule} {as : List Alert} {ss : List SuggestedLine} {st : ConversationState}
      {as' : List Alert} {ss' : List SuggestedLine} {st' : ConversationState},
    processRules m t tl rf l as ss st = .ok (as', ss', st') →
    ∃ Δa Δs,
      as' = as ++ Δa ∧ ss' = ss ++ Δs ∧
      st'.seen_alerts = st.seen_alerts ++ Δa.map (fun a => a.rule_id) ∧
      MonoLe st st' ∧
      (Δa.map (fun a => a.rule_id)).Nodup ∧
      (∀ a ∈ Δa, a.rule_id ∉ st.seen_alerts) ∧
      (∀ s ∈ Δs, s.confidence = 85 ∧ ∃ r ∈ l, s.text = r.recommended_fix) ∧
      (∀ a ∈ Δa, ∃ r ∈ l, ∃ s₀ s₁, check_rule m t tl rf r s₀ = .ok (some a, s₁) ∧
        MonoLe st s₀ ∧ r.id ∉ s₀.seen_alerts ∧
        (s₀.dnc_requested = true → st.dnc_requested = true ∨ ∃ b ∈ Δa, b.rule_id = "DNC-001")) ∧
      (st'.dnc_requested = true → st.dnc_requested = true ∨ ∃ b ∈ Δa, b.rule_id = "DNC-001") ∧
      (∀ b ∈ Δa, b.rule_id = "DNC-001" → st'.dnc_requested = true) := by
  intro l
  induction l with
  | nil =>
    intro as ss st as' ss' st' h
    unfold processRules at h
    cases h
    exact ⟨[], [], by simp, by simp, by simp, MonoLe.rfl st, by simp, by simp, by simp, by simp,
      fun hx => Or.inl hx, by simp⟩
  | cons r rest ih =>
    intro as ss st as' ss' st' h
    unfold processRules at h
    split at h
    · -- rule already fired: skipped
      rcases ih h with ⟨Δa, Δs, e1, e2, e3, e4, e5, e6, e7, e8, e9, e10⟩
      refine ⟨Δa, Δs, e1, e2, e3, e4, e5, e6, ?_, ?_, e9, e10⟩
      · intro s hs
        rcases e7 s hs with ⟨hc, r', hr', ht⟩
        exact ⟨hc, r', List.mem_cons_of_mem _ hr', ht⟩
      · intro a ha
        rcases e8 a ha with ⟨r', hr', s₀, s₁, hck, hm, hns, hdp⟩
        exact ⟨r', List.mem_cons_of_mem _ hr', s₀, s₁, hck, hm, hns, hdp⟩
    · -- rule processed
      rename_i hguard
      cases hc : check_rule m t tl rf r st with
      | crash => rw [hc] at h; exact absurd h (by simp)
      | err e => rw [hc] at h; exact absurd h (by simp)
      | ok p =>
        obtain ⟨res, st1⟩ := p
        rw [hc] at h
        obtain ⟨cseen, cmono, cprov, cids, cflag, cgate⟩ := check_rule_ok hc
        cases res with
        | none =>
          rcases ih h with ⟨Δa, Δs, e1, e2, e3, e4, e5, e6, e7, e8, e9, e10⟩
          refine ⟨Δa, Δs, e1, e2, by rw [e3, cseen], MonoLe.trans cmono e4, e5, ?_, ?_, ?_, ?_, e10⟩
          · intro a ha
            have := e6 a ha
            rwa [cseen] at this
          · intro s hs
            rcases e7 s hs with ⟨hcf, r', hr', ht⟩
            exact ⟨hcf, r', List.mem_cons_of_mem _ hr', ht⟩
          · intro a ha
            rcases e8 a ha with ⟨r', hr', s₀, s₁, hck, hm, hns, hdp⟩
            refine ⟨r', List.mem_cons_of_mem _ hr', s₀, s₁, hck, MonoLe.trans cmono hm, hns, ?_⟩
            intro hdn
            rcases hdp hdn with hx | hx
            · rcases cprov hx with hy | ⟨_, aa, haa⟩
              · exact Or.inl hy
              · exact absurd haa (by simp)
            · exact Or.inr hx
          · intro hdn
            rcases e9 hdn with hx | hx
            · rcases cprov hx with hy | ⟨_, aa, haa⟩
              · exact Or.inl hy
              · exact absurd haa (by simp)
            · exact Or.inr hx
        | some a =>
          rcases ih h with ⟨Δa, Δs, e1, e2, e3, e4, e5, e6, e7, e8, e9, e10⟩
          have haid : a.rule_id = r.id := cids a rfl
          have hst2 : MonoLe st1 { st1 with seen_alerts := st1.seen_alerts ++ [a.rule_id] } :=
            MonoLe.seen _ _
          refine ⟨a :: Δa, (if ¬(r.recommended_fix = "") then [⟨r.recommended_fix, 85⟩] else []) ++ Δs,
            ?_, ?_, ?_, ?_, ?_, ?_, ?_, ?_, ?_, ?_⟩
          · rw [e1]; simp
          · rw [e2]; split <;> simp
          · rw [e3]; dsimp only; rw [cseen]; simp
          · exact MonoLe.trans cmono (MonoLe.trans hst2 e4)
          · refine List.nodup_cons.mpr ⟨?_, e5⟩
            intro hmem
            rcases List.mem_map.mp hmem with ⟨b, hb, hbid⟩
            have := e6 b hb
            dsimp only at this
            exact this (by rw [hbid]; exact List.mem_append_right _ (by simp))
          · intro b hb
            rcases List.mem_cons.mp hb with hb | hb
            · rw [hb, haid]; exact hguard
            · have := e6 b hb
              dsimp only at this
              rw [cseen] at this
              exact fun hx => this (List.mem_append_left _ hx)
          · intro s hs
            rcases List.mem_append.mp hs with hs | hs
            · split at hs
              · rcases List.mem_singleton.mp hs with rfl
                exact ⟨rfl, r, List.mem_cons_self _ _, rfl⟩
              · cases hs
            · rcases e7 s hs with ⟨hcf, r', hr', ht⟩
              exact ⟨hcf, r', List.mem_cons_of_mem _ hr', ht⟩
          · intro b hb
            rcases List.mem_cons.mp hb with hb | hb
            · subst hb
              exact ⟨r, List.mem_cons_self _ _, st, st1, hc, MonoLe.rfl st, hguard,
                fun hx => Or.inl hx⟩
            · rcases e8 b hb with ⟨r', hr', s₀, s₁, hck, hm, hns, hdp⟩
              refine ⟨r', List.mem_cons_of_mem _ hr', s₀, s₁, hck,
                MonoLe.trans cmono (MonoLe.trans hst2 hm), hns, ?_⟩
              intro hdn
              rcases hdp hdn with hx | hx
              · rcases cprov hx with hy | ⟨hid, aa, haa⟩
                · exact Or.inl hy
                · exact Or.inr ⟨a, List.mem_cons_self _ _, by rw [haid]; exact hid⟩
              · rcases hx with ⟨c, hcmem, hcid⟩
                exact Or.inr ⟨c, List.mem_cons_of_mem _ hcmem, hcid⟩
          · intro hdn
            rcases e9 hdn with hx | hx
            · rcases cprov hx with hy | ⟨hid, aa, haa⟩
              · exact Or.inl hy
              · exact Or.inr ⟨a, List.mem_cons_self _ _, by rw [haid]; exact hid⟩
            · rcases hx with ⟨c, hcmem, hcid⟩
              exact Or.inr ⟨c, List.mem_cons_of_mem _ hcmem, hcid⟩
          · intro b hb hid
            rcases List.mem_cons.mp hb with hb | hb
            · subst hb
              have h1 : st1.dnc_requested = true := cflag (by rw [← haid]; exact hid) b rfl
              exact e4.1 h1
            · exact e10 b hb hid


/-- Unfolding `evaluate` to its per-rule pass plus suggestion
post-processing. -/
theorem evaluate_shape {m : CallMetadata} {t : List Char} {rs : RuleSet} {rf : RegexOracle}
    {st : ConversationState} {out : EvaluationOutput} {st' : ConversationState}
    (h : evaluate m t rs rf st = .ok (out, st')) :
    ∃ as ss,
      processRules m t (rustToLowercase t) rf (rs.rules.filter (·.enabled)) [] [] st =
        .ok (as, ss, st') ∧
      out.alerts = as ∧
      out.suggested_next_lines = (contextualExtend m t st' ss).take 3 := by
  unfold evaluate at h
  dsimp only at h
  cases hp : processRules m t (rustToLowercase t) rf (rs.rules.filter (·.enabled)) [] [] st with
  | crash => rw [hp] at h; exact absurd h (by simp)
  | err e => rw [hp] at h; exact absurd h (by simp)
  | ok p =>
    obtain ⟨as, ss, st₁⟩ := p
    rw [hp] at h
    dsimp only at h
    cases h
    exact ⟨as, ss, rfl, rfl, rfl⟩

/-- Workhorse consequence of one successful `evaluate` call: the
fired-set grows by exactly the emitted alert ids (pairwise distinct and
fresh), flags only grow, every alert stems from an intermediate
`check_rule` call, and the DNC flag traces back to the entry state or to
a `DNC-001` alert of this output. -/
theorem evaluate_ok {m : CallMetadata} {t : List Char} {rs : RuleSet} {rf : RegexOracle}
    {st : ConversationState} {out : EvaluationOutput} {st' : ConversationState}
    (h : evaluate m t rs rf st = .ok (out, st')) :
    st'.seen_alerts = st.seen_alerts ++ out.alerts.map (fun a => a.rule_id) ∧
    MonoLe st st' ∧
    (out.alerts.map (fun a => a.rule_id)).Nodup ∧
    (∀ a ∈ out.alerts, a.rule_id ∉ st.seen_alerts) ∧
    (∀ a ∈ out.alerts, ∃ r ∈ rs.rules.filter (·.enabled), ∃ s₀ s₁,
      check_rule m t (rustToLowercase t) rf r s₀ = .ok (some a, s₁) ∧
      MonoLe st s₀ ∧ r.id ∉ s₀.seen_alerts ∧
      (s₀.dnc_requested = true → st.dnc_requested = true ∨
        ∃ b ∈ out.alerts, b.rule_id = "DNC-001")) ∧
    (st'.dnc_requested = true → st.dnc_requested = true ∨
      ∃ b ∈ out.alerts, b.rule_id = "DNC-001") ∧
    (∀ b ∈ out.alerts, b.rule_id = "DNC-001" → st'.dnc_requested = true) := by
  rcases evaluate_shape h with ⟨as, ss, hp, hal, _⟩
  rcases processRules_ok hp with ⟨Δa, Δs, e1, _, e3, e4, e5, e6, _, e8, e9, e10⟩
  rw [List.nil_append] at e1
  subst e1
  rw [← hal] at e3 e5 e6 e8 e9 e10
  exact ⟨e3, e4, e5, e6, e8, e9, e10⟩

/-- Conversation states reachable from a session start through
deterministic evaluation with the default catalog (with `reset` allowed
at any point, as `start_call_session` and `reset_evaluator` do). -/
inductive Reachable : ConversationState → Prop where
  | init : Reachable ConversationState.init
  | step {m : CallMetadata} {t : List Char} {rf : RegexOracle}
      {s : ConversationState} {out : EvaluationOutput} {s' : ConversationState} :
      Reachable s → evaluate m t defaultRuleSet rf s = .ok (out, s') → Reachable s'
  | reset {s : ConversationState} : Reachable s → Reachable (reset s)

/-- In every reachable state the DNC flag is set exactly when `DNC-001`
has fired. -/
theorem reachable_dnc_iff {s : ConversationState} (h : Reachable s) :
    (s.dnc_requested = true ↔ "DNC-001" ∈ s.seen_alerts) := by
  induction h with
  | init => simp [ConversationState.init]
  | reset _ ih => simp [reset, ConversationState.init]
  | @step m t rf s out s' _ hev ih =>
    obtain ⟨hseen, hmono, _, _, hprovs, hdncp, hdncn⟩ := evaluate_ok hev
    constructor
    · intro hdn
      rw [hseen]
      rcases hdncp hdn with hx | ⟨b, hb, hbid⟩
      · exact List.mem_append_left _ (ih.mp hx)
      · exact List.mem_append_right _ (List.mem_map.mpr ⟨b, hb, hbid⟩)
    · intro hmem
      rw [hseen] at hmem
      rcases List.mem_append.mp hmem with hx | hx
      · exact hmono.1 (ih.mpr hx)
      · rcases List.mem_map.mp hx with ⟨b, hb, hbid⟩
        exact hdncn b hb hbid


/-! ## Call sequences (repeated `evaluate` on one conversation state) -/

/-- One frontend `evaluate` request: metadata, transcript-so-far, and the
regex engine behaviour for that call. -/
structure CallInput where
  meta : CallMetadata
  transcript : List Char
  oracle : RegexOracle

/-- Run a sequence of deterministic `evaluate` calls on one conversation
state with the default catalog, collecting the outputs; a failing call
aborts the session. -/
def runCalls : ConversationState → List CallInput → List EvaluationOutput × ConversationState
  | st, [] => ([], st)
  | st, i :: rest =>
    match evaluate i.meta i.transcript defaultRuleSet i.oracle st with
    | .ok (out, st') =>
      let (outs, stf) := runCalls st' rest
      (out :: outs, stf)
    | .err _ => ([], st)
    | .crash => ([], st)

/-- Cumulative alert invariant over a call sequence, for an arbitrary
starting state. -/
theorem runCalls_invariant :
    ∀ {inputs : List CallInput} {st : ConversationState} {outs : List EvaluationOutput}
      {stf : ConversationState}, runCalls st inputs = (outs, stf) →
    stf.seen_alerts = st.seen_alerts ++
      (outs.flatMap (fun o => o.alerts)).map (fun a => a.rule_id) ∧
    ((outs.flatMap (fun o => o.alerts)).map (fun a => a.rule_id)).Nodup ∧
    (∀ a ∈ outs.flatMap (fun o => o.alerts), a.rule_id ∉ st.seen_alerts) := by
  intro inputs
  induction inputs with
  | nil =>
    intro st outs stf h
    unfold runCalls at h
    cases h
    simp
  | cons i rest ih =>
    intro st outs stf h
    unfold runCalls at h
    cases hev : evaluate i.meta i.transcript defaultRuleSet i.oracle st with
    | err e =>
      rw [hev] at h
      cases h
      simp
    | crash =>
      rw [hev] at h
      cases h
      simp
    | ok p =>
      obtain ⟨out, st'⟩ := p
      rw [hev] at h
      dsimp only at h
      cases hrun : runCalls st' rest with
      | mk outs' stf' =>
        rw [hrun] at h
        cases h
        obtain ⟨hseen, _, hnodup, hfresh, _⟩ := evaluate_ok hev
        obtain ⟨ihseen, ihnodup, ihfresh⟩ := ih hrun
        refine ⟨?_, ?_, ?_⟩
        · rw [ihseen, hseen]
          simp
        · rw [List.flatMap_cons, List.map_append]
          rw [List.nodup_append]
          refine ⟨hnodup, ihnodup, ?_⟩
          intro x hx hx'
          rcases List.mem_map.mp hx' with ⟨b, hb, hbid⟩
          have := ihfresh b hb
          rw [hseen] at this
          exact this (List.mem_append_right _ (by rw [hbid]; exact hx))
        · intro a ha
          rw [List.flatMap_cons, List.mem_append] at ha
          rcases ha with hao | hao
          · exact hfresh a hao
          · have := ihfresh a hao
            rw [hseen] at this
            exact fun hx => this (List.mem_append_left _ hx)


/-- If a rule of the list is still unfired, is the only list entry with
its id, and whose `check_rule` yields the fixed alert `a₀` from every
intermediate state dominating the entry state, then a successful pass
emits `a₀`. -/
theorem processRules_fires {m : CallMetadata} {t tl : List Char} {rf : RegexOracle} :
    ∀ {l : List Rule} {as : List Alert} {ss : List SuggestedLine} {st : ConversationState}
      {as' : List Alert} {ss' : List SuggestedLine} {st' : ConversationState},
    processRules m t tl rf l as ss st = .ok (as', ss', st') →
    ∀ {r : Rule} {a₀ : Alert}, r ∈ l → r.id ∉ st.seen_alerts →
    (∀ r' ∈ l, r'.id = r.id → r' = r) →
    (∀ s₀, MonoLe st s₀ → ∃ s₁, check_rule m t tl rf r s₀ = .ok (some a₀, s₁)) →
    a₀ ∈ as' := by
  intro l
  induction l with
  | nil =>
    intro as ss st as' ss' st' h r a₀ hr
    exact absurd hr (List.not_mem_nil r)
  | cons hd rest ih =>
    intro as ss st as' ss' st' h r a₀ hr hns huniq hfire
    unfold processRules at h
    split at h
    · rename_i hseen
      rcases List.mem_cons.mp hr with heq | hrest
      · rw [heq] at hns
        exact absurd hseen hns
      · exact ih h hrest hns (fun r' hr' => huniq r' (List.mem_cons_of_mem _ hr')) hfire
    · rename_i hguard
      cases hc : check_rule m t tl rf hd st with
      | crash => rw [hc] at h; exact absurd h (by simp)
      | err e => rw [hc] at h; exact absurd h (by simp)
      | ok p =>
        obtain ⟨res, st1⟩ := p
        rw [hc] at h
        obtain ⟨cseen, cmono, _, cids, _, _⟩ := check_rule_ok hc
        by_cases hhd : hd = r
        · -- the head is the rule in question: it fires now
          rcases hfire st (MonoLe.rfl st) with ⟨s₁, hck⟩
          rw [hhd] at hc
          rw [hc] at hck
          injection hck with hck
          injection hck with hres hst
          rw [hres] at h
          dsimp only at h
          rcases processRules_ok h with ⟨Δa, Δs, e1, _⟩
          rw [e1]
          exact List.mem_append_left _ (List.mem_append_right _ (List.mem_singleton.mpr rfl))
        · -- the head is another rule
          have hrest : r ∈ rest := by
            rcases List.mem_cons.mp hr with heq | hrest
            · exact absurd heq.symm hhd
            · exact hrest
          have hidne : hd.id ≠ r.id := fun hid => hhd (huniq hd (List.mem_cons_self _ _) hid)
          cases res with
          | none =>
            refine ih h hrest ?_ (fun r' hr' => huniq r' (List.mem_cons_of_mem _ hr')) ?_
            · rw [cseen]; exact hns
            · intro s₀ hm
              exact hfire s₀ (MonoLe.trans cmono hm)
          | some a =>
            have haid : a.rule_id = hd.id := cids a rfl
            refine ih h hrest ?_ (fun r' hr' => huniq r' (List.mem_cons_of_mem _ hr')) ?_
            · dsimp only
              rw [cseen]
              intro hx
              rcases List.mem_append.mp hx with hx | hx
              · exact hns hx
              · rw [List.mem_singleton] at hx
                rw [haid] at hx
                exact hidne hx.symm
            · intro s₀ hm
              exact hfire s₀ (MonoLe.trans cmono (MonoLe.trans (MonoLe.seen _ _) hm))

set_option maxRecDepth 8192 in
/-- In the default catalog every rule is enabled. -/
theorem default_filter_enabled :
    defaultRuleSet.rules.filter (·.enabled) = defaultRuleSet.rules := by decide

/-- Evaluate-level version of `processRules_fires` for the default
catalog. -/
theorem evaluate_fires {m : CallMetadata} {t : List Char} {rf : RegexOracle}
    {st : ConversationState} {out : EvaluationOutput} {st' : ConversationState}
    (hev : evaluate m t defaultRuleSet rf st = .ok (out, st'))
    {r : Rule} {a₀ : Alert} (hr : r ∈ defaultRuleSet.rules) (hns : r.id ∉ st.seen_alerts)
    (huniq : ∀ r' ∈ defaultRuleSet.rules, r'.id = r.id → r' = r)
    (hfire : ∀ s₀, MonoLe st s₀ →
      ∃ s₁, check_rule m t (rustToLowercase t) rf r s₀ = .ok (some a₀, s₁)) :
    a₀ ∈ out.alerts := by
  rcases evaluate_shape hev with ⟨as, ss, hp, hal, _⟩
  rw [hal]
  rw [default_filter_enabled] at hp
  exact processRules_fires hp hr hns huniq hfire

/-- Every alert of a default-catalog evaluation stems from a `check_rule`
call on one of the eleven catalog rules, and inherits that rule's id. -/
theorem alert_provenance {m : CallMetadata} {t : List Char} {rf : RegexOracle}
    {st : ConversationState} {out : EvaluationOutput} {st' : ConversationState}
    (hev : evaluate m t defaultRuleSet rf st = .ok (out, st'))
    {a : Alert} (ha : a ∈ out.alerts) :
    ∃ r ∈ defaultRuleSet.rules, a.rule_id = r.id ∧
      ∃ s₀ s₁, check_rule m t (rustToLowercase t) rf r s₀ = .ok (some a, s₁) := by
  obtain ⟨_, _, _, _, hprov, _, _⟩ := evaluate_ok hev
  rcases hprov a ha with ⟨r, hr, s₀, s₁, hck, _⟩
  rw [default_filter_enabled] at hr
  obtain ⟨_, _, _, cids, _, _⟩ := check_rule_ok hck
  exact ⟨r, hr, cids a rfl, s₀, s₁, hck⟩


/-! ## Orchestrator path lemmas -/

/-- Orchestrator, hosted path chosen and hosted success: the hosted
alerts and suggestions are normalised and passed through unchanged, and
the conversation state is untouched. -/
theorem evaluate_transcript_llm_ok {m : CallMetadata} {t : List Char}
    {use_llm llm_enabled : Bool} {lr : LlmResponse} {rs : RuleSet} {rf : RegexOracle}
    {k : Nat} {st : ConversationState} {res : EvaluationResult} {st' : ConversationState}
    (hu : (use_llm && llm_enabled) = true)
    (h : evaluate_transcript m t use_llm llm_enabled (.ok lr) rs rf k st = .ok (res, st')) :
    res.llm_used = true ∧ res.alerts = lr.alerts.map convertLlmAlert ∧
    res.suggested_next_lines = lr.suggested_next_lines.map (fun s => ⟨s.text, s.confidence⟩) ∧
    st' = st := by
  unfold evaluate_transcript at h
  rw [hu] at h
  dsimp only at h
  rw [if_pos rfl] at h
  cases h
  exact ⟨rfl, rfl, rfl, rfl⟩

/-- Orchestrator, hosted path chosen but hosted failure: the result is
the deterministic evaluation, yet `llm_used` still reports `true`. -/
theorem evaluate_transcript_fallback {m : CallMetadata} {t : List Char}
    {use_llm llm_enabled : Bool} {e : String} {rs : RuleSet} {rf : RegexOracle}
    {k : Nat} {st : ConversationState} {res : EvaluationResult} {st' : ConversationState}
    (hu : (use_llm && llm_enabled) = true)
    (h : evaluate_transcript m t use_llm llm_enabled (.error e) rs rf k st = .ok (res, st')) :
    res.llm_used = true ∧ ∃ out, evaluate m t rs rf st = .ok (out, st') ∧
      res.alerts = out.alerts ∧ res.suggested_next_lines = out.suggested_next_lines := by
  unfold evaluate_transcript at h
  rw [hu] at h
  dsimp only at h
  rw [if_pos rfl] at h
  cases hev : evaluate m t rs rf st with
  | crash => rw [hev] at h; exact absurd h (by simp)
  | err e2 => rw [hev] at h; exact absurd h (by simp)
  | ok p =>
    obtain ⟨out, st₁⟩ := p
    rw [hev] at h
    dsimp only at h
    cases h
    exact ⟨rfl, out, rfl, rfl, rfl⟩

/-- Orchestrator, deterministic path chosen: the result is the
deterministic evaluation with `llm_used = false`. -/
theorem evaluate_transcript_det {m : CallMetadata} {t : List Char}
    {use_llm llm_enabled : Bool} {lo : Except String LlmResponse} {rs : RuleSet}
    {rf : RegexOracle} {k : Nat} {st : ConversationState} {res : EvaluationResult}
    {st' : ConversationState}
    (hu : (use_llm && llm_enabled) = false)
    (h : evaluate_transcript m t use_llm llm_enabled lo rs rf k st = .ok (res, st')) :
    res.llm_used = false ∧ ∃ out, evaluate m t rs rf st = .ok (out, st') ∧
      res.alerts = out.alerts ∧ res.suggested_next_lines = out.suggested_next_lines := by
  unfold evaluate_transcript at h
  rw [hu] at h
  dsimp only at h
  rw [if_neg (by simp)] at h
  cases hev : evaluate m t rs rf st with
  | crash => rw [hev] at h; exact absurd h (by simp)
  | err e2 => rw [hev] at h; exact absurd h (by simp)
  | ok p =>
    obtain ⟨out, st₁⟩ := p
    rw [hev] at h
    dsimp only at h
    cases h
    exact ⟨rfl, out, rfl, rfl, rfl⟩

/-! ## Concrete inputs used by claim witnesses and counterexamples -/

/-- Plain outbound-sales metadata with all risk flags clear. -/
def mPlain : CallMetadata :=
  { call_id := "call-001", agent_id := "agent-001", agent_name := "Pat"
    call_start_time := "2026-01-16T18:20:00Z", caller_timezone := none
    customer_phone := none, is_dnc_listed := false, has_prior_consent := false
    is_prerecorded := false, call_type := "outbound_sales" }

/-- Metadata of a DNC-listed callee without consent evidence. -/
def mDnc : CallMetadata := { mPlain with is_dnc_listed := true }

/-- Metadata of a prerecorded call without consent evidence. -/
def mPrec : CallMetadata := { mPlain with is_prerecorded := true }

/-! ## C1 -/

/-- Transcript triggering `DNC-001`. -/
def tDnc : List Char := chars "hello, don\x27t call me again"

set_option maxRecDepth 16384 in
/-- C1: with `useLlm = true` and availability set, a hosted-evaluator
failure falls back to the deterministic evaluator — the returned alerts
and suggestions are exactly the deterministic ones — but the result's
`llm_used` field is `true`, not `false`: `lib.rs` line 159 returns
`should_use_llm` (the caller's intent) instead of which path ran, so the
claim's `llmUsed:false` clause is violated by the code. -/
theorem C1_fallback_reports_llm_used_true :
    (evalOk (evaluate_transcript mPlain tDnc true true
        (.error "Failed to parse LLM JSON output") defaultRuleSet rfNone 5
        ConversationState.init)).map (fun p => p.1.llm_used) = some true ∧
    (evalOk (evaluate_transcript mPlain tDnc true true
        (.error "Failed to parse LLM JSON output") defaultRuleSet rfNone 5
        ConversationState.init)).map (fun p => (p.1.alerts, p.1.suggested_next_lines)) =
      (evalOk (evaluate mPlain tDnc defaultRuleSet rfNone
        ConversationState.init)).map (fun p => (p.1.alerts, p.1.suggested_next_lines)) ∧
    (evalOk (evaluate mPlain tDnc defaultRuleSet rfNone ConversationState.init)).map
        (fun p => p.1.alerts.map (fun a => a.rule_id)) = some ["DNC-001"] := by
  decide

/-! ## C2 -/

/-- C2: starting from a session start (the state `reset` produces),
across any sequence of deterministic `evaluate` calls without an
intervening reset, no rule id appears twice among the cumulative alerts,
and a rule id is in the fired-set exactly when some call alerted it. -/
theorem C2_cumulative_alert_uniqueness {inputs : List CallInput}
    {outs : List EvaluationOutput} {stf : ConversationState}
    (h : runCalls ConversationState.init inputs = (outs, stf)) :
    ((outs.flatMap (fun o => o.alerts)).map (fun a => a.rule_id)).Nodup ∧
    (∀ rid : String, rid ∈ stf.seen_alerts ↔
      ∃ o ∈ outs, ∃ a ∈ o.alerts, a.rule_id = rid) := by
  obtain ⟨hseen, hnodup, _⟩ := runCalls_invariant h
  refine ⟨hnodup, fun rid => ?_⟩
  rw [hseen]
  have hinit : ConversationState.init.seen_alerts = [] := rfl
  rw [hinit, List.nil_append]
  constructor
  · intro hx
    rcases List.mem_map.mp hx with ⟨a, ha, haid⟩
    rcases List.mem_flatMap.mp ha with ⟨o, ho, hao⟩
    exact ⟨o, ho, a, hao, haid⟩
  · rintro ⟨o, ho, a, hao, haid⟩
    exact List.mem_map.mpr ⟨a, List.mem_flatMap.mpr ⟨o, ho, hao⟩, haid⟩

/-- A two-call conversation: the customer asks not to be called, then
later also opts out. -/
def inputsC2 : List CallInput :=
  [ ⟨mPlain, chars "hello, don\x27t call me now", rfNone⟩
  , ⟨mPlain, chars "hello, don\x27t call me now. i want to opt out", rfNone⟩ ]

set_option maxRecDepth 16384 in
/-- Witness for C2 at a concrete two-call session. -/
theorem C2_witness :
    (((runCalls ConversationState.init inputsC2).1.flatMap
        (fun o => o.alerts)).map (fun a => a.rule_id)).Nodup ∧
    (∀ rid : String, rid ∈ (runCalls ConversationState.init inputsC2).2.seen_alerts ↔
      ∃ o ∈ (runCalls ConversationState.init inputsC2).1, ∃ a ∈ o.alerts, a.rule_id = rid) :=
  C2_cumulative_alert_uniqueness rfl

/-! ## C9 -/

/-- C9: `reset` zeroes every flag and empties the fired-set, is
idempotent, and an evaluation started from a reset state coincides with
one started from a fresh session state — so any rule that previously
alerted is again eligible to alert on the same input. -/
theorem C9_reset_idempotent_reeligible (s : ConversationState) :
    reset s = ConversationState.init ∧
    (reset s).dnc_requested = false ∧ (reset s).consent_revoked = false ∧
    (reset s).disclosures.seller_identified = false ∧
    (reset s).disclosures.sales_purpose_stated = false ∧
    (reset s).disclosures.product_described = false ∧
    (reset s).disclosures.callback_provided = false ∧
    (reset s).disclosures.recording_disclosed = false ∧
    (reset s).seen_alerts = [] ∧
    reset (reset s) = reset s ∧
    (∀ (m : CallMetadata) (t : List Char) (rs : RuleSet) (rf : RegexOracle),
      evaluate m t rs rf (reset s) = evaluate m t rs rf ConversationState.init) :=
  ⟨rfl, rfl, rfl, rfl, rfl, rfl, rfl, rfl, rfl, rfl, fun _ _ _ _ => rfl⟩

/-! ## C10 -/

/-- A transcript whose `DNC-001` trigger match at byte 0 produces the
context window `[0, 43)`, where byte 43 falls inside the final two-byte
character. -/
def tPanic : List Char := chars "don\x27t call me" ++ List.replicate 29 'x' ++ ['é']

set_option maxRecDepth 16384 in
/-- C10 is false on the code: deterministic `evaluate` is not total.  On
`tPanic` the trigger "don\x27t call me" matches at byte 0, `end_pos = 13`,
`context_end = min(13 + 30, 44) = 43`, and byte 43 is not a character
boundary of the transcript (the final character spans bytes 42-44), so
`&transcript[0..43]` panics in Rust; the embedding crashes. -/
theorem C10_unicode_slice_panics :
    evaluate mPlain tPanic defaultRuleSet rfNone ConversationState.init = .crash ∧
    byteLen tPanic = 44 ∧ boundaryIdx tPanic 43 = none ∧
    rustFind (rustToLowercase tPanic) (rustToLowercase (chars "don\x27t call me")) = some 0 := by
  decide


/-! ## C4: metadata rules -/

/-- A metadata-branch `check_rule` success is a `check_metadata_rule`
success. -/
theorem meta_alert_chain {m : CallMetadata} {t tl : List Char} {rf : RegexOracle}
    {r : Rule} {s₀ s₁ : ConversationState} {a : Alert}
    (hreq : r.requires_metadata = true)
    (hck : check_rule m t tl rf r s₀ = .ok (some a, s₁)) :
    check_metadata_rule m r = .ok (some a) := by
  unfold check_rule at hck
  rw [if_pos hreq] at hck
  rcases check_metadata_rule_total m r with ⟨res, hres⟩
  rw [hres] at hck
  dsimp only at hck
  cases hck
  exact hres

/-- Any `DNC-003` alert of a default-catalog evaluation certifies the
metadata condition and carries confidence 95. -/
theorem dnc3_alert_char {m : CallMetadata} {t : List Char} {rf : RegexOracle}
    {st : ConversationState} {out : EvaluationOutput} {st' : ConversationState}
    (hev : evaluate m t defaultRuleSet rf st = .ok (out, st'))
    {a : Alert} (ha : a ∈ out.alerts) (hid : a.rule_id = "DNC-003") :
    m.is_dnc_listed = true ∧ m.has_prior_consent = false ∧ a.confidence = 95 := by
  rcases alert_provenance hev ha with ⟨r, hr, haid, s₀, s₁, hck⟩
  have hriddnc : r.id = "DNC-003" := by rw [← haid, hid]
  have huniq : ∀ r' ∈ defaultRuleSet.rules, r'.id = "DNC-003" → r' = ruleDNC003 := by decide
  have hrule := huniq r hr hriddnc
  subst hrule
  have hmeta := meta_alert_chain rfl hck
  rcases check_metadata_rule_some hmeta with ⟨_, hconf, _, _, _, hcase⟩
  rcases hcase with ⟨_, h1, h2, _⟩ | ⟨hbad, _⟩
  · exact ⟨h1, h2, hconf⟩
  · exact absurd hbad (by decide)

/-- When the `DNC-003` metadata condition holds and the rule is unfired,
a default-catalog evaluation emits its alert. -/
theorem dnc3_alert_exists {m : CallMetadata} {t : List Char} {rf : RegexOracle}
    {st : ConversationState} {out : EvaluationOutput} {st' : ConversationState}
    (hev : evaluate m t defaultRuleSet rf st = .ok (out, st'))
    (hns : "DNC-003" ∉ st.seen_alerts)
    (h1 : m.is_dnc_listed = true) (h2 : m.has_prior_consent = false) :
    ∃ a ∈ out.alerts, a.rule_id = "DNC-003" ∧ a.confidence = 95 := by
  rcases check_metadata_rule_dnc3 m (show ruleDNC003.id = "DNC-003" from rfl) h1 h2 with ⟨a, hma⟩
  have hmem : a ∈ out.alerts := by
    refine evaluate_fires hev (r := ruleDNC003) (by decide) hns (by decide) ?_
    intro s₀ _
    refine ⟨s₀, ?_⟩
    unfold check_rule
    rw [if_pos (show ruleDNC003.requires_metadata = true from rfl), hma]
  rcases check_metadata_rule_some hma with ⟨hrid, hconf, _⟩
  exact ⟨a, hmem, hrid, hconf⟩

/-- Any `PREC-001` alert of a default-catalog evaluation certifies the
metadata condition and carries confidence 95. -/
theorem prec_alert_char {m : CallMetadata} {t : List Char} {rf : RegexOracle}
    {st : ConversationState} {out : EvaluationOutput} {st' : ConversationState}
    (hev : evaluate m t defaultRuleSet rf st = .ok (out, st'))
    {a : Alert} (ha : a ∈ out.alerts) (hid : a.rule_id = "PREC-001") :
    m.is_prerecorded = true ∧ m.has_prior_consent = false ∧ a.confidence = 95 := by
  rcases alert_provenance hev ha with ⟨r, hr, haid, s₀, s₁, hck⟩
  have hridp : r.id = "PREC-001" := by rw [← haid, hid]
  have huniq : ∀ r' ∈ defaultRuleSet.rules, r'.id = "PREC-001" → r' = rulePREC001 := by decide
  have hrule := huniq r hr hridp
  subst hrule
  have hmeta := meta_alert_chain rfl hck
  rcases check_metadata_rule_some hmeta with ⟨_, hconf, _, _, _, hcase⟩
  rcases hcase with ⟨hbad, _⟩ | ⟨_, h1, h2, _⟩
  · exact absurd hbad (by decide)
  · exact ⟨h1, h2, hconf⟩

/-- When the `PREC-001` metadata condition holds and the rule is unfired,
a default-catalog evaluation emits its alert. -/
theorem prec_alert_exists {m : CallMetadata} {t : List Char} {rf : RegexOracle}
    {st : ConversationState} {out : EvaluationOutput} {st' : ConversationState}
    (hev : evaluate m t defaultRuleSet rf st = .ok (out, st'))
    (hns : "PREC-001" ∉ st.seen_alerts)
    (h1 : m.is_prerecorded = true) (h2 : m.has_prior_consent = false) :
    ∃ a ∈ out.alerts, a.rule_id = "PREC-001" ∧ a.confidence = 95 := by
  rcases check_metadata_rule_prec m (show rulePREC001.id = "PREC-001" from rfl) h1 h2 with ⟨a, hma⟩
  have hmem : a ∈ out.alerts := by
    refine evaluate_fires hev (r := rulePREC001) (by decide) hns (by decide) ?_
    intro s₀ _
    refine ⟨s₀, ?_⟩
    unfold check_rule
    rw [if_pos (show rulePREC001.requires_metadata = true from rfl), hma]
  rcases check_metadata_rule_some hma with ⟨hrid, hconf, _⟩
  exact ⟨a, hmem, hrid, hconf⟩

/-- `TIME-001` never alerts under the default catalog. -/
theorem time_alert_none {m : CallMetadata} {t : List Char} {rf : RegexOracle}
    {st : ConversationState} {out : EvaluationOutput} {st' : ConversationState}
    (hev : evaluate m t defaultRuleSet rf st = .ok (out, st'))
    {a : Alert} (ha : a ∈ out.alerts) : a.rule_id ≠ "TIME-001" := by
  intro hid
  rcases alert_provenance hev ha with ⟨r, hr, haid, s₀, s₁, hck⟩
  have hridt : r.id = "TIME-001" := by rw [← haid, hid]
  have huniq : ∀ r' ∈ defaultRuleSet.rules, r'.id = "TIME-001" → r' = ruleTIME001 := by decide
  have hrule := huniq r hr hridt
  subst hrule
  have hmeta := meta_alert_chain rfl hck
  rw [check_metadata_rule_time m (show ruleTIME001.id = "TIME-001" from rfl)] at hmeta
  exact absurd hmeta (by simp)

/-- C4: under the default catalog, on a first evaluation for the rule in
question, `DNC-003` alerts with confidence 95 exactly when the callee is
DNC-listed without prior consent, `PREC-001` alerts with confidence 95
exactly when the call is prerecorded without prior consent, `TIME-001`
never alerts, and none of these outcomes depends on the transcript (or
on the regex engine). -/
theorem C4_metadata_rules {m : CallMetadata} {t : List Char} {rf : RegexOracle}
    {st : ConversationState} {out : EvaluationOutput} {st' : ConversationState}
    (hev : evaluate m t defaultRuleSet rf st = .ok (out, st')) :
    (("DNC-003" ∉ st.seen_alerts) →
      ((∃ a ∈ out.alerts, a.rule_id = "DNC-003" ∧ a.confidence = 95) ↔
        (m.is_dnc_listed = true ∧ m.has_prior_consent = false))) ∧
    (("PREC-001" ∉ st.seen_alerts) →
      ((∃ a ∈ out.alerts, a.rule_id = "PREC-001" ∧ a.confidence = 95) ↔
        (m.is_prerecorded = true ∧ m.has_prior_consent = false))) ∧
    (∀ a ∈ out.alerts, a.rule_id ≠ "TIME-001") ∧
    (∀ (t₂ : List Char) (rf₂ : RegexOracle) (out₂ : EvaluationOutput)
      (st₂ : ConversationState),
      evaluate m t₂ defaultRuleSet rf₂ st = .ok (out₂, st₂) →
      (("DNC-003" ∉ st.seen_alerts →
        ((∃ a ∈ out.alerts, a.rule_id = "DNC-003") ↔
         (∃ a ∈ out₂.alerts, a.rule_id = "DNC-003"))) ∧
       ("PREC-001" ∉ st.seen_alerts →
        ((∃ a ∈ out.alerts, a.rule_id = "PREC-001") ↔
         (∃ a ∈ out₂.alerts, a.rule_id = "PREC-001"))))) := by
  refine ⟨?_, ?_, fun a ha => time_alert_none hev ha, ?_⟩
  · intro hns
    constructor
    · rintro ⟨a, ha, hid, _⟩
      rcases dnc3_alert_char hev ha hid with ⟨h1, h2, _⟩
      exact ⟨h1, h2⟩
    · rintro ⟨h1, h2⟩
      exact dnc3_alert_exists hev hns h1 h2
  · intro hns
    constructor
    · rintro ⟨a, ha, hid, _⟩
      rcases prec_alert_char hev ha hid with ⟨h1, h2, _⟩
      exact ⟨h1, h2⟩
    · rintro ⟨h1, h2⟩
      exact prec_alert_exists hev hns h1 h2
  · intro t₂ rf₂ out₂ st₂ hev₂
    constructor
    · intro hns
      constructor
      · rintro ⟨a, ha, hid⟩
        rcases dnc3_alert_char hev ha hid with ⟨h1, h2, _⟩
        rcases dnc3_alert_exists hev₂ hns h1 h2 with ⟨b, hb, hbid, _⟩
        exact ⟨b, hb, hbid⟩
      · rintro ⟨a, ha, hid⟩
        rcases dnc3_alert_char hev₂ ha hid with ⟨h1, h2, _⟩
        rcases dnc3_alert_exists hev hns h1 h2 with ⟨b, hb, hbid, _⟩
        exact ⟨b, hb, hbid⟩
    · intro hns
      constructor
      · rintro ⟨a, ha, hid⟩
        rcases prec_alert_char hev ha hid with ⟨h1, h2, _⟩
        rcases prec_alert_exists hev₂ hns h1 h2 with ⟨b, hb, hbid, _⟩
        exact ⟨b, hb, hbid⟩
      · rintro ⟨a, ha, hid⟩
        rcases prec_alert_char hev₂ ha hid with ⟨h1, h2, _⟩
        rcases prec_alert_exists hev hns h1 h2 with ⟨b, hb, hbid, _⟩
        exact ⟨b, hb, hbid⟩

set_option maxRecDepth 16384 in
/-- Witness for C4: on a DNC-listed, non-prerecorded call with an empty
transcript, the first evaluation emits precisely the `DNC-003` alert. -/
theorem C4_witness :
    ((∃ a ∈ (evalOk (evaluate mDnc [] defaultRuleSet rfNone ConversationState.init)).getD
        (⟨[], []⟩, ConversationState.init) |>.1.alerts, a.rule_id = "DNC-003" ∧
        a.confidence = 95) ↔
      (mDnc.is_dnc_listed = true ∧ mDnc.has_prior_consent = false)) := by
  have h : evaluate mDnc [] defaultRuleSet rfNone ConversationState.init =
      .ok (((evalOk (evaluate mDnc [] defaultRuleSet rfNone ConversationState.init)).getD
        (⟨[], []⟩, ConversationState.init)).1,
        ((evalOk (evaluate mDnc [] defaultRuleSet rfNone ConversationState.init)).getD
        (⟨[], []⟩, ConversationState.init)).2) := by decide
  exact (C4_metadata_rules h).1 (by decide)


/-! ## C3: DNC-002 gating -/

/-- With the gate unsatisfied, `check_rule` on `DNC-002` emits nothing
and leaves the state untouched, whether a trigger, a pattern, or nothing
matched. -/
theorem dnc2_gate_blocked {m : CallMetadata} {t tl : List Char} {rf : RegexOracle}
    {s : ConversationState} {res : Option Alert} {s' : ConversationState}
    (hdnc : s.dnc_requested = false)
    (hck : check_rule m t tl rf ruleDNC002 s = .ok (res, s')) :
    res = none ∧ s' = s := by
  unfold check_rule at hck
  rw [if_neg (show ¬(ruleDNC002.requires_metadata = true) by decide)] at hck
  cases htm : firstTriggerMatch tl ruleDNC002.triggers with
  | some p =>
    obtain ⟨trig, pos⟩ := p
    rw [htm] at hck
    dsimp only at hck
    unfold checkTriggerHit at hck
    dsimp only at hck
    cases hsl : byteSlice t pos (min (pos + byteLen trig + 30) (byteLen t)) with
    | none => rw [hsl] at hck; exact absurd hck (by simp)
    | some sl =>
      rw [hsl] at hck
      dsimp only at hck
      rw [if_neg (show ¬(ruleDNC002.id = "DNC-001") by decide)] at hck
      rw [if_pos ⟨rfl, hdnc⟩] at hck
      cases hck
      exact ⟨rfl, rfl⟩
  | none =>
    rw [htm] at hck
    dsimp only at hck
    cases hrm : firstRegexMatch rf tl ruleDNC002.regex_patterns with
    | some p =>
      obtain ⟨ms, me⟩ := p
      rw [hrm] at hck
      dsimp only at hck
      unfold checkRegexHit at hck
      dsimp only at hck
      cases hsl : byteSlice t ms (min (me + 20) (byteLen t)) with
      | none => rw [hsl] at hck; exact absurd hck (by simp)
      | some sl =>
        rw [hsl] at hck
        dsimp only at hck
        rw [if_neg (show ¬(ruleDNC002.id = "DNC-001") by decide)] at hck
        rw [if_pos ⟨rfl, hdnc⟩] at hck
        cases hck
        exact ⟨rfl, rfl⟩
    | none =>
      rw [hrm] at hck
      dsimp only at hck
      cases hck
      exact ⟨rfl, rfl⟩

/-- C3: (a) a `DNC-002` alert of any default-catalog evaluation from a
reachable state implies the DNC flag holds afterwards and `DNC-001`
fired either in an earlier call (already in the fired-set) or earlier in
this very pass; (b) when the gate is unsatisfied at its check, a matched
`DNC-002` produces no alert and no state change, so it is not added to
the fired-set and stays eligible; (c) once the gate holds and `DNC-002`
is unfired, a trigger match makes the evaluation emit a `DNC-002`
alert. -/
theorem C3_dnc2_gating :
    (∀ (m : CallMetadata) (t : List Char) (rf : RegexOracle) (s : ConversationState)
      (out : EvaluationOutput) (s' : ConversationState),
      Reachable s → evaluate m t defaultRuleSet rf s = .ok (out, s') →
      ∀ a ∈ out.alerts, a.rule_id = "DNC-002" →
        s'.dnc_requested = true ∧
        ("DNC-001" ∈ s.seen_alerts ∨ ∃ b ∈ out.alerts, b.rule_id = "DNC-001")) ∧
    (∀ (m : CallMetadata) (t tl : List Char) (rf : RegexOracle) (s : ConversationState)
      (res : Option Alert) (s' : ConversationState),
      s.dnc_requested = false → check_rule m t tl rf ruleDNC002 s = .ok (res, s') →
      res = none ∧ s' = s) ∧
    (∀ (m : CallMetadata) (t : List Char) (rf : RegexOracle) (s : ConversationState)
      (out : EvaluationOutput) (s' : ConversationState) (trig : List Char) (pos : Nat)
      (sl : List Char),
      evaluate m t defaultRuleSet rf s = .ok (out, s') →
      s.dnc_requested = true → "DNC-002" ∉ s.seen_alerts →
      firstTriggerMatch (rustToLowercase t) ruleDNC002.triggers = some (trig, pos) →
      byteSlice t pos (min (pos + byteLen trig + 30) (byteLen t)) = some sl →
      ∃ a ∈ out.alerts, a.rule_id = "DNC-002") := by
  refine ⟨?_, fun m t tl rf s res s' hdnc hck => dnc2_gate_blocked hdnc hck, ?_⟩
  · intro m t rf s out s' hreach hev a ha hid
    obtain ⟨_, hmono, _, _, hprov, _, hdncn⟩ := evaluate_ok hev
    rcases hprov a ha with ⟨r, hr, s₀, s₁, hck, _, _, hdp⟩
    obtain ⟨_, _, _, cids, _, cgate⟩ := check_rule_ok hck
    have hrid : r.id = "DNC-002" := by rw [← cids a rfl, hid]
    obtain ⟨hs₀, _⟩ := cgate hrid a rfl
    rcases hdp hs₀ with hx | hx
    · exact ⟨hmono.1 hx, Or.inl ((reachable_dnc_iff hreach).mp hx)⟩
    · rcases hx with ⟨b, hb, hbid⟩
      exact ⟨hdncn b hb hbid, Or.inr ⟨b, hb, hbid⟩⟩
  · intro m t rf s out s' trig pos sl hev hdnc hns htm hsl
    refine ⟨{ id := uuidNewV4, rule_id := "DNC-002", title := ruleDNC002.title
              severity := severity_to_string ruleDNC002.severity, confidence := 90
              evidence := ⟨rustTrim sl, pos, pos + byteLen trig⟩
              why_it_matters := ruleDNC002.why_it_matters
              agent_fix_suggestion := ruleDNC002.recommended_fix },
      evaluate_fires hev (r := ruleDNC002) (by decide) hns (by decide) ?_, rfl⟩
    intro s₀ hm
    refine ⟨s₀, ?_⟩
    unfold check_rule
    rw [if_neg (show ¬(ruleDNC002.requires_metadata = true) by decide), htm]
    dsimp only
    unfold checkTriggerHit
    dsimp only
    rw [hsl]
    dsimp only
    rw [if_neg (show ¬(ruleDNC002.id = "DNC-001") by decide)]
    rw [if_neg (show ¬(ruleDNC002.id = "DNC-002" ∧ s₀.dnc_requested = false) from
      fun hx => by rw [hm.1 hdnc] at hx; exact absurd hx.2 (by decide))]
    rw [if_neg (show ¬(ruleDNC002.id = "CONS-001") by decide)]
    rfl


/-- Placeholder alert for total list indexing in witnesses. -/
def anyAlert : Alert := ⟨"", "", "", "", 0, ⟨[], 0, 0⟩, "", ""⟩

/-- A transcript containing a `DNC-001` trigger followed by a `DNC-002`
trigger. -/
def tGate : List Char := chars "don\x27t call me. but wait"

/-- Output of the gate scenario evaluation. -/
def outGate : EvaluationOutput :=
  ((evalOk (evaluate mPlain tGate defaultRuleSet rfNone ConversationState.init)).getD
    (⟨[], []⟩, ConversationState.init)).1

/-- Final state of the gate scenario evaluation. -/
def stGate : ConversationState :=
  ((evalOk (evaluate mPlain tGate defaultRuleSet rfNone ConversationState.init)).getD
    (⟨[], []⟩, ConversationState.init)).2

set_option maxRecDepth 16384 in
/-- Witness for C3: in one pass over "don\x27t call me. but wait", the
`DNC-002` alert is accompanied by a `DNC-001` alert of the same pass. -/
theorem C3_witness :
    stGate.dnc_requested = true ∧
    ("DNC-001" ∈ ConversationState.init.seen_alerts ∨
      ∃ b ∈ outGate.alerts, b.rule_id = "DNC-001") := by
  have h : evaluate mPlain tGate defaultRuleSet rfNone ConversationState.init =
      .ok (outGate, stGate) := by decide
  exact C3_dnc2_gating.1 mPlain tGate rfNone ConversationState.init outGate stGate
    Reachable.init h (outGate.alerts.getD 1 anyAlert) (by decide) (by decide)

/-! ## C5: disclosure detectors -/

/-- Membership in the contextual-suggestion extension. -/
theorem contextualExtend_mem {m : CallMetadata} {t : List Char} {st : ConversationState}
    {ss : List SuggestedLine} {sug : SuggestedLine}
    (h : sug ∈ contextualExtend m t st ss) :
    sug ∈ ss ∨
    (st.disclosures.seller_identified = false ∧ sug = ⟨identifySuggestionText, 80⟩) ∨
    (st.disclosures.sales_purpose_stated = false ∧ sug = ⟨salesSuggestionText, 80⟩) := by
  unfold contextualExtend at h
  split at h
  · split at h <;> split at h <;>
      rename_i h1 h2 <;>
      first
      | (rcases List.mem_append.mp h with hx | hx
         · rcases List.mem_append.mp hx with hy | hy
           · exact Or.inl hy
           · exact Or.inr (Or.inl ⟨by assumption, List.mem_singleton.mp hy⟩)
         · exact Or.inr (Or.inr ⟨by assumption, List.mem_singleton.mp hx⟩))
      | (rcases List.mem_append.mp h with hx | hx
         · exact Or.inl hx
         · exact Or.inr (Or.inr ⟨by assumption, List.mem_singleton.mp hx⟩))
      | (rcases List.mem_append.mp h with hx | hx
         · exact Or.inl hx
         · exact Or.inr (Or.inl ⟨by assumption, List.mem_singleton.mp hx⟩))
      | exact Or.inl h
  · exact Or.inl h


/-- `DISC-001` never alerts; a pattern match sets the seller flag. -/
theorem disc1_check {m : CallMetadata} {t tl : List Char} {rf : RegexOracle}
    {st : ConversationState} {res : Option Alert} {st' : ConversationState}
    (hck : check_rule m t tl rf ruleDISC001 st = .ok (res, st')) :
    res = none ∧ (firstRegexMatch rf tl ruleDISC001.regex_patterns ≠ none →
      st'.disclosures.seller_identified = true) := by
  unfold check_rule at hck
  rw [if_neg (show ¬(ruleDISC001.requires_metadata = true) by decide)] at hck
  rw [show firstTriggerMatch tl ruleDISC001.triggers = none from rfl] at hck
  dsimp only at hck
  cases hrm : firstRegexMatch rf tl ruleDISC001.regex_patterns with
  | none =>
    rw [hrm] at hck
    dsimp only at hck
    cases hck
    exact ⟨rfl, fun hne => absurd rfl hne⟩
  | some p =>
    obtain ⟨ms, me⟩ := p
    rw [hrm] at hck
    dsimp only at hck
    obtain ⟨_, _, _, _, _, _, _, _, _, _, _, _, hd1, _⟩ := checkRegexHit_ok hck
    obtain ⟨hres, hflag⟩ := hd1 rfl
    exact ⟨hres, fun _ => hflag⟩

/-- `DISC-002` never alerts; a pattern match sets the sales-purpose
flag. -/
theorem disc2_check {m : CallMetadata} {t tl : List Char} {rf : RegexOracle}
    {st : ConversationState} {res : Option Alert} {st' : ConversationState}
    (hck : check_rule m t tl rf ruleDISC002 st = .ok (res, st')) :
    res = none ∧ (firstRegexMatch rf tl ruleDISC002.regex_patterns ≠ none →
      st'.disclosures.sales_purpose_stated = true) := by
  unfold check_rule at hck
  rw [if_neg (show ¬(ruleDISC002.requires_metadata = true) by decide)] at hck
  rw [show firstTriggerMatch tl ruleDISC002.triggers = none from rfl] at hck
  dsimp only at hck
  cases hrm : firstRegexMatch rf tl ruleDISC002.regex_patterns with
  | none =>
    rw [hrm] at hck
    dsimp only at hck
    cases hck
    exact ⟨rfl, fun hne => absurd rfl hne⟩
  | some p =>
    obtain ⟨ms, me⟩ := p
    rw [hrm] at hck
    dsimp only at hck
    obtain ⟨_, _, _, _, _, _, _, _, _, _, _, _, _, hd2, _⟩ := checkRegexHit_ok hck
    obtain ⟨hres, hflag⟩ := hd2 rfl
    exact ⟨hres, fun _ => hflag⟩

/-- `DISC-003` matches nothing in the default catalog and never
alerts. -/
theorem disc3_check {m : CallMetadata} {t tl : List Char} {rf : RegexOracle}
    {st : ConversationState} {res : Option Alert} {st' : ConversationState}
    (hck : check_rule m t tl rf ruleDISC003 st = .ok (res, st')) :
    res = none ∧ st' = st := by
  unfold check_rule at hck
  rw [if_neg (show ¬(ruleDISC003.requires_metadata = true) by decide)] at hck
  rw [show firstTriggerMatch tl ruleDISC003.triggers = none from rfl] at hck
  dsimp only at hck
  rw [show firstRegexMatch rf tl ruleDISC003.regex_patterns = none from rfl] at hck
  dsimp only at hck
  cases hck
  exact ⟨rfl, rfl⟩

/-- `IDENT-001` never alerts; a pattern match sets the callback flag. -/
theorem ident1_check {m : CallMetadata} {t tl : List Char} {rf : RegexOracle}
    {st : ConversationState} {res : Option Alert} {st' : ConversationState}
    (hck : check_rule m t tl rf ruleIDENT001 st = .ok (res, st')) :
    res = none ∧ (firstRegexMatch rf tl ruleIDENT001.regex_patterns ≠ none →
      st'.disclosures.callback_provided = true) := by
  unfold check_rule at hck
  rw [if_neg (show ¬(ruleIDENT001.requires_metadata = true) by decide)] at hck
  rw [show firstTriggerMatch tl ruleIDENT001.triggers = none from rfl] at hck
  dsimp only at hck
  cases hrm : firstRegexMatch rf tl ruleIDENT001.regex_patterns with
  | none =>
    rw [hrm] at hck
    dsimp only at hck
    cases hck
    exact ⟨rfl, fun hne => absurd rfl hne⟩
  | some p =>
    obtain ⟨ms, me⟩ := p
    rw [hrm] at hck
    dsimp only at hck
    obtain ⟨_, _, _, _, _, _, _, _, _, _, _, _, _, _, _, hd4, _⟩ := checkRegexHit_ok hck
    obtain ⟨hres, hflag⟩ := hd4 rfl
    exact ⟨hres, fun _ => hflag⟩

/-- `REC-001` never alerts; a pattern match sets the recording flag. -/
theorem rec1_check {m : CallMetadata} {t tl : List Char} {rf : RegexOracle}
    {st : ConversationState} {res : Option Alert} {st' : ConversationState}
    (hck : check_rule m t tl rf ruleREC001 st = .ok (res, st')) :
    res = none ∧ (firstRegexMatch rf tl ruleREC001.regex_patterns ≠ none →
      st'.disclosures.recording_disclosed = true) := by
  unfold check_rule at hck
  rw [if_neg (show ¬(ruleREC001.requires_metadata = true) by decide)] at hck
  rw [show firstTriggerMatch tl ruleREC001.triggers = none from rfl] at hck
  dsimp only at hck
  cases hrm : firstRegexMatch rf tl ruleREC001.regex_patterns with
  | none =>
    rw [hrm] at hck
    dsimp only at hck
    cases hck
    exact ⟨rfl, fun hne => absurd rfl hne⟩
  | some p =>
    obtain ⟨ms, me⟩ := p
    rw [hrm] at hck
    dsimp only at hck
    obtain ⟨_, _, _, _, _, _, _, _, _, _, _, _, _, _, _, _, hd5, _⟩ := checkRegexHit_ok hck
    obtain ⟨hres, hflag⟩ := hd5 rfl
    exact ⟨hres, fun _ => hflag⟩

/-- C5: under the default catalog the disclosure detectors `DISC-001`,
`DISC-002`, `DISC-003`, `IDENT-001`, `REC-001` never contribute an alert
to any `evaluate` output; a pattern match on one of them sets the
corresponding disclosure flag; and once `sellerIdentified`
(resp. `salesPurposeStated`) holds, the generic "identify yourself"
(resp. "state sales purpose") suggestion never appears in an output. -/
theorem C5_disclosure_detectors :
    (∀ (m : CallMetadata) (t : List Char) (rf : RegexOracle) (st : ConversationState)
      (out : EvaluationOutput) (st' : ConversationState),
      evaluate m t defaultRuleSet rf st = .ok (out, st') →
      ∀ a ∈ out.alerts, a.rule_id ≠ "DISC-001" ∧ a.rule_id ≠ "DISC-002" ∧
        a.rule_id ≠ "DISC-003" ∧ a.rule_id ≠ "IDENT-001" ∧ a.rule_id ≠ "REC-001") ∧
    (∀ (m : CallMetadata) (t tl : List Char) (rf : RegexOracle) (st : ConversationState)
      (res : Option Alert) (st' : ConversationState),
      (check_rule m t tl rf ruleDISC001 st = .ok (res, st') →
        res = none ∧ (firstRegexMatch rf tl ruleDISC001.regex_patterns ≠ none →
          st'.disclosures.seller_identified = true)) ∧
      (check_rule m t tl rf ruleDISC002 st = .ok (res, st') →
        res = none ∧ (firstRegexMatch rf tl ruleDISC002.regex_patterns ≠ none →
          st'.disclosures.sales_purpose_stated = true)) ∧
      (check_rule m t tl rf ruleDISC003 st = .ok (res, st') → res = none) ∧
      (check_rule m t tl rf ruleIDENT001 st = .ok (res, st') →
        res = none ∧ (firstRegexMatch rf tl ruleIDENT001.regex_patterns ≠ none →
          st'.disclosures.callback_provided = true)) ∧
      (check_rule m t tl rf ruleREC001 st = .ok (res, st') →
        res = none ∧ (firstRegexMatch rf tl ruleREC001.regex_patterns ≠ none →
          st'.disclosures.recording_disclosed = true))) ∧
    (∀ (m : CallMetadata) (t : List Char) (rf : RegexOracle) (st : ConversationState)
      (out : EvaluationOutput) (st' : ConversationState),
      st.disclosures.seller_identified = true →
      evaluate m t defaultRuleSet rf st = .ok (out, st') →
      ∀ sug ∈ out.suggested_next_lines, sug.text ≠ identifySuggestionText) ∧
    (∀ (m : CallMetadata) (t : List Char) (rf : RegexOracle) (st : ConversationState)
      (out : EvaluationOutput) (st' : ConversationState),
      st.disclosures.sales_purpose_stated = true →
      evaluate m t defaultRuleSet rf st = .ok (out, st') →
      ∀ sug ∈ out.suggested_next_lines, sug.text ≠ salesSuggestionText) := by
  have hnever : ∀ (m : CallMetadata) (t : List Char) (rf : RegexOracle)
      (st : ConversationState) (out : EvaluationOutput) (st' : ConversationState),
      evaluate m t defaultRuleSet rf st = .ok (out, st') →
      ∀ a ∈ out.alerts, a.rule_id ≠ "DISC-001" ∧ a.rule_id ≠ "DISC-002" ∧
        a.rule_id ≠ "DISC-003" ∧ a.rule_id ≠ "IDENT-001" ∧ a.rule_id ≠ "REC-001" := by
    intro m t rf st out st' hev a ha
    rcases alert_provenance hev ha with ⟨r, hr, haid, s₀, s₁, hck⟩
    refine ⟨?_, ?_, ?_, ?_, ?_⟩
    · intro hid
      have hrid : r.id = "DISC-001" := by rw [← haid, hid]
      have huniq : ∀ r' ∈ defaultRuleSet.rules, r'.id = "DISC-001" → r' = ruleDISC001 := by
        decide
      rw [huniq r hr hrid] at hck
      exact absurd (disc1_check hck).1 (by simp)
    · intro hid
      have hrid : r.id = "DISC-002" := by rw [← haid, hid]
      have huniq : ∀ r' ∈ defaultRuleSet.rules, r'.id = "DISC-002" → r' = ruleDISC002 := by
        decide
      rw [huniq r hr hrid] at hck
      exact absurd (disc2_check hck).1 (by simp)
    · intro hid
      have hrid : r.id = "DISC-003" := by rw [← haid, hid]
      have huniq : ∀ r' ∈ defaultRuleSet.rules, r'.id = "DISC-003" → r' = ruleDISC003 := by
        decide
      rw [huniq r hr hrid] at hck
      exact absurd (disc3_check hck).1 (by simp)
    · intro hid
      have hrid : r.id = "IDENT-001" := by rw [← haid, hid]
      have huniq : ∀ r' ∈ defaultRuleSet.rules, r'.id = "IDENT-001" → r' = ruleIDENT001 := by
        decide
      rw [huniq r hr hrid] at hck
      exact absurd (ident1_check hck).1 (by simp)
    · intro hid
      have hrid : r.id = "REC-001" := by rw [← haid, hid]
      have huniq : ∀ r' ∈ defaultRuleSet.rules, r'.id = "REC-001" → r' = ruleREC001 := by
        decide
      rw [huniq r hr hrid] at hck
      exact absurd (rec1_check hck).1 (by simp)
  refine ⟨hnever, ?_, ?_, ?_⟩
  · intro m t tl rf st res st'
    exact ⟨fun h => disc1_check h, fun h => disc2_check h, fun h => (disc3_check h).1,
      fun h => ident1_check h, fun h => rec1_check h⟩
  · intro m t rf st out st' hflag hev sug hsug
    rcases evaluate_shape hev with ⟨as, ss, hp, _, hsg⟩
    rcases processRules_ok hp with ⟨Δa, Δs, _, e2, _, e4, _, _, e7, _⟩
    rw [List.nil_append] at e2
    subst e2
    rw [hsg] at hsug
    have hsug2 := List.take_subset 3 _ hsug
    rcases contextualExtend_mem hsug2 with hx | ⟨hfx, _⟩ | ⟨_, hx⟩
    · rcases e7 sug hx with ⟨_, r, hrmem, htext⟩
      rw [default_filter_enabled] at hrmem
      have : ∀ r' ∈ defaultRuleSet.rules, ¬(r'.recommended_fix = identifySuggestionText) := by
        decide
      rw [htext]
      exact this r hrmem
    · rw [e4.2.2.1 hflag] at hfx
      exact absurd hfx (by decide)
    · rw [hx]
      decide
  · intro m t rf st out st' hflag hev sug hsug
    rcases evaluate_shape hev with ⟨as, ss, hp, _, hsg⟩
    rcases processRules_ok hp with ⟨Δa, Δs, _, e2, _, e4, _, _, e7, _⟩
    rw [List.nil_append] at e2
    subst e2
    rw [hsg] at hsug
    have hsug2 := List.take_subset 3 _ hsug
    rcases contextualExtend_mem hsug2 with hx | ⟨_, hx⟩ | ⟨hfx, _⟩
    · rcases e7 sug hx with ⟨_, r, hrmem, htext⟩
      rw [default_filter_enabled] at hrmem
      have : ∀ r' ∈ defaultRuleSet.rules, ¬(r'.recommended_fix = salesSuggestionText) := by
        decide
      rw [htext]
      exact this r hrmem
    · rw [hx]
      decide
    · rw [e4.2.2.2.1 hflag] at hfx
      exact absurd hfx (by decide)


/-- Oracle that matches only the `DISC-001` seller-identification
pattern, at span `[0, 7)`. -/
def rfDisc : RegexOracle := fun p _ =>
  if p = "(?i)(calling\\s+(from|on\\s+behalf\\s+of)|this\\s+is|my\\s+name\\s+is.*?(with|from))"
  then some (0, 7) else none

/-- Transcript with a `DNC-001` trigger and a seller identification. -/
def tDisc : List Char := chars "don\x27t call me, calling from acme"

/-- Output of the disclosure scenario. -/
def outDisc : EvaluationOutput :=
  ((evalOk (evaluate mPlain tDisc defaultRuleSet rfDisc ConversationState.init)).getD
    (⟨[], []⟩, ConversationState.init)).1

/-- Final state of the disclosure scenario. -/
def stDisc : ConversationState :=
  ((evalOk (evaluate mPlain tDisc defaultRuleSet rfDisc ConversationState.init)).getD
    (⟨[], []⟩, ConversationState.init)).2

/-- State with the seller already identified. -/
def stSeller : ConversationState := ⟨false, false, ⟨true, false, false, false, false⟩, []⟩

/-- A long trigger-free transcript (121 bytes > 100). -/
def tLong : List Char := List.replicate 121 'x'

/-- Output of the suppression scenario. -/
def outSupp : EvaluationOutput :=
  ((evalOk (evaluate mPlain tLong defaultRuleSet rfNone stSeller)).getD
    (⟨[], []⟩, ConversationState.init)).1

/-- Final state of the suppression scenario. -/
def stSupp : ConversationState :=
  ((evalOk (evaluate mPlain tLong defaultRuleSet rfNone stSeller)).getD
    (⟨[], []⟩, ConversationState.init)).2

set_option maxRecDepth 16384 in
/-- Witness for C5: a `DISC-001` pattern match alongside a `DNC-001`
trigger yields only the `DNC-001` alert and sets the seller flag, and
with the seller identified the generic identify-yourself suggestion is
absent from a long outbound-sales call's output. -/
theorem C5_witness :
    (outDisc.alerts.getD 0 anyAlert).rule_id ≠ "DISC-001" ∧
    (∀ sug ∈ outSupp.suggested_next_lines, sug.text ≠ identifySuggestionText) ∧
    (firstRegexMatch rfDisc (rustToLowercase tDisc) ruleDISC001.regex_patterns ≠ none →
      stSeller.disclosures.seller_identified = true) := by
  have h1 : evaluate mPlain tDisc defaultRuleSet rfDisc ConversationState.init =
      .ok (outDisc, stDisc) := by decide
  refine ⟨(C5_disclosure_detectors.1 mPlain tDisc rfDisc ConversationState.init outDisc stDisc
    h1 (outDisc.alerts.getD 0 anyAlert) (by decide)).1, ?_, ?_⟩
  · have h2 : evaluate mPlain tLong defaultRuleSet rfNone stSeller = .ok (outSupp, stSupp) := by
      decide
    exact C5_disclosure_detectors.2.2.1 mPlain tLong rfNone stSeller outSupp stSupp rfl h2
  · exact ((C5_disclosure_detectors.2.1 mPlain tDisc (rustToLowercase tDisc) rfDisc
      ConversationState.init none stSeller).1 (by decide)).2

/-! ## C8: suggestion bound and ordering -/

/-- Shape of the contextual-suggestion extension: it appends a
confidence-80 block, nonempty only on long outbound-sales
transcripts. -/
theorem contextualExtend_shape (m : CallMetadata) (t : List Char) (st : ConversationState)
    (ss : List SuggestedLine) :
    ∃ csug, contextualExtend m t st ss = ss ++ csug ∧
      (∀ s ∈ csug, s.confidence = 80) ∧
      (csug ≠ [] → m.call_type = "outbound_sales" ∧ byteLen t > 100) := by
  unfold contextualExtend
  split
  · rename_i hcond
    split <;> split
    · refine ⟨[⟨identifySuggestionText, 80⟩, ⟨salesSuggestionText, 80⟩], by simp, ?_,
        fun _ => hcond⟩
      intro s hs
      simp only [List.mem_cons, List.mem_singleton, List.not_mem_nil, or_false] at hs
      rcases hs with rfl | rfl <;> rfl
    · refine ⟨[⟨identifySuggestionText, 80⟩], by simp, ?_, fun _ => hcond⟩
      intro s hs
      rw [List.mem_singleton] at hs
      subst hs
      rfl
    · refine ⟨[⟨salesSuggestionText, 80⟩], by simp, ?_, fun _ => hcond⟩
      intro s hs
      rw [List.mem_singleton] at hs
      subst hs
      rfl
    · exact ⟨[], by simp, by simp, fun _ => hcond⟩
  · exact ⟨[], by simp, by simp, fun h => absurd rfl h⟩

/-- C8 (amended): on the deterministic path the suggestion list is the
3-truncation of rule-derived confidence-85 suggestions followed by the
generic confidence-80 contextual block (present only for outbound-sales
transcripts longer than 100 bytes), hence has length at most 3; the
orchestrator preserves this bound whenever the deterministic path ran
(including on hosted-failure fallback); on a hosted success the
suggestions are passed through without truncation. -/
theorem C8_suggestion_bound :
    (∀ (m : CallMetadata) (t : List Char) (rf : RegexOracle) (st : ConversationState)
      (out : EvaluationOutput) (st' : ConversationState),
      evaluate m t defaultRuleSet rf st = .ok (out, st') →
      out.suggested_next_lines.length ≤ 3 ∧
      ∃ rsug csug, out.suggested_next_lines = (rsug ++ csug).take 3 ∧
        (∀ s ∈ rsug, s.confidence = 85) ∧ (∀ s ∈ csug, s.confidence = 80) ∧
        (csug ≠ [] → m.call_type = "outbound_sales" ∧ byteLen t > 100)) ∧
    (∀ (m : CallMetadata) (t : List Char) (use_llm llm_enabled : Bool)
      (lo : Except String LlmResponse) (rf : RegexOracle) (k : Nat)
      (st : ConversationState) (res : EvaluationResult) (st' : ConversationState),
      evaluate_transcript m t use_llm llm_enabled lo defaultRuleSet rf k st = .ok (res, st') →
      ((use_llm && llm_enabled) = false ∨ ∃ e, lo = .error e) →
      res.suggested_next_lines.length ≤ 3) ∧
    (∀ (m : CallMetadata) (t : List Char) (use_llm llm_enabled : Bool) (lr : LlmResponse)
      (rs : RuleSet) (rf : RegexOracle) (k : Nat) (st : ConversationState)
      (res : EvaluationResult) (st' : ConversationState),
      (use_llm && llm_enabled) = true →
      evaluate_transcript m t use_llm llm_enabled (.ok lr) rs rf k st = .ok (res, st') →
      res.suggested_next_lines =
        lr.suggested_next_lines.map (fun s => ⟨s.text, s.confidence⟩)) := by
  have hdet : ∀ (m : CallMetadata) (t : List Char) (rf : RegexOracle) (st : ConversationState)
      (out : EvaluationOutput) (st' : ConversationState),
      evaluate m t defaultRuleSet rf st = .ok (out, st') →
      out.suggested_next_lines.length ≤ 3 ∧
      ∃ rsug csug, out.suggested_next_lines = (rsug ++ csug).take 3 ∧
        (∀ s ∈ rsug, s.confidence = 85) ∧ (∀ s ∈ csug, s.confidence = 80) ∧
        (csug ≠ [] → m.call_type = "outbound_sales" ∧ byteLen t > 100) := by
    intro m t rf st out st' hev
    rcases evaluate_shape hev with ⟨as, ss, hp, _, hsg⟩
    rcases processRules_ok hp with ⟨Δa, Δs, _, e2, _, _, _, _, e7, _⟩
    rw [List.nil_append] at e2
    subst e2
    rcases contextualExtend_shape m t st' ss with ⟨csug, hce, hc80, hcne⟩
    rw [hce] at hsg
    refine ⟨?_, ss, csug, hsg, fun s hs => (e7 s hs).1, hc80, hcne⟩
    rw [hsg]
    exact List.length_take_le 3 _
  refine ⟨hdet, ?_, ?_⟩
  · intro m t use_llm llm_enabled lo rf k st res st' h hcase
    by_cases hu : (use_llm && llm_enabled) = true
    · rcases hcase with hf | ⟨e, rfl⟩
      · exact absurd hu (by rw [hf]; decide)
      · rcases evaluate_transcript_fallback hu h with ⟨_, out, hev, _, hsg⟩
        rw [hsg]
        exact (hdet m t rf st out st' hev).1
    · rcases evaluate_transcript_det (Bool.eq_false_iff.mpr hu) h with ⟨_, out, hev, _, hsg⟩
      rw [hsg]
      exact (hdet m t rf st out st' hev).1
  · intro m t use_llm llm_enabled lr rs rf k st res st' hu h
    exact (evaluate_transcript_llm_ok hu h).2.2.1

/-- A hosted response carrying four suggestions. -/
def lrFour : LlmResponse :=
  ⟨[], [⟨"alpha", 50⟩, ⟨"beta", 50⟩, ⟨"gamma", 50⟩, ⟨"delta", 50⟩]⟩

/-- Counterexample for C8 as stated: on a hosted-LLM success the
orchestrator performs no truncation, so a hosted response with four
suggestions yields a result with four suggestions, violating
`suggestedNextLines.length ≤ 3`. -/
theorem C8_counterexample :
    (evalOk (evaluate_transcript mPlain [] true true (.ok lrFour) defaultRuleSet rfNone 0
      ConversationState.init)).map (fun p => p.1.suggested_next_lines.length) = some 4 ∧
    ¬((4 : Nat) ≤ 3) := by
  exact ⟨by decide, by decide⟩

set_option maxRecDepth 16384 in
/-- Witness for C8 at the long outbound-sales scenario. -/
theorem C8_witness :
    outSupp.suggested_next_lines.length ≤ 3 ∧
    ∃ rsug csug, outSupp.suggested_next_lines = (rsug ++ csug).take 3 ∧
      (∀ s ∈ rsug, s.confidence = 85) ∧ (∀ s ∈ csug, s.confidence = 80) ∧
      (csug ≠ [] → mPlain.call_type = "outbound_sales" ∧ byteLen tLong > 100) := by
  have h2 : evaluate mPlain tLong defaultRuleSet rfNone stSeller = .ok (outSupp, stSupp) := by
    decide
  exact C8_suggestion_bound.1 mPlain tLong rfNone stSeller outSupp stSupp h2


/-! ## ASCII transcripts: byte offsets coincide with character offsets -/

/-- All characters of the text are ASCII. -/
def AsciiText (t : List Char) : Prop := ∀ c ∈ t, c.toNat < 128

instance (t : List Char) : Decidable (AsciiText t) := by
  unfold AsciiText
  infer_instance

theorem ascii_utf8Size {c : Char} (h : c.toNat < 128) : c.utf8Size = 1 := by
  unfold Char.utf8Size
  dsimp only
  rw [if_pos]
  exact Nat.lt_succ_iff.mp h

theorem byteLen_ascii : ∀ {t : List Char}, AsciiText t → byteLen t = t.length := by
  intro t
  induction t with
  | nil => intro _; rfl
  | cons c cs ih =>
    intro h
    have hc := h c (List.mem_cons_self _ _)
    have hcs : AsciiText cs := fun d hd => h d (List.mem_cons_of_mem _ hd)
    unfold byteLen at *
    simp only [List.map_cons, List.sum_cons, List.length_cons]
    rw [ascii_utf8Size hc, ih hcs]
    omega

theorem ascii_take {t : List Char} (h : AsciiText t) (n : Nat) : AsciiText (t.take n) :=
  fun c hc => h c (List.take_subset n t hc)

theorem ascii_drop {t : List Char} (h : AsciiText t) (n : Nat) : AsciiText (t.drop n) :=
  fun c hc => h c (List.drop_subset n t hc)

theorem boundaryIdx_ascii : ∀ {t : List Char}, AsciiText t → ∀ {n : Nat}, n ≤ t.length →
    boundaryIdx t n = some n := by
  intro t
  induction t with
  | nil =>
    intro _ n hn
    rw [List.length_nil, Nat.le_zero] at hn
    subst hn
    rfl
  | cons c cs ih =>
    intro h n hn
    cases n with
    | zero => rfl
    | succ k =>
      have hc := h c (List.mem_cons_self _ _)
      have hcs : AsciiText cs := fun d hd => h d (List.mem_cons_of_mem _ hd)
      unfold boundaryIdx
      rw [if_pos (by rw [ascii_utf8Size hc]; omega)]
      rw [ascii_utf8Size hc]
      simp only [Nat.add_sub_cancel]
      rw [ih hcs (by simpa using hn)]
      rfl

theorem byteSlice_ascii {t : List Char} (h : AsciiText t) {a b : Nat}
    (hab : a ≤ b) (hb : b ≤ t.length) :
    byteSlice t a b = some ((t.take b).drop a) := by
  unfold byteSlice
  rw [if_pos hab, boundaryIdx_ascii h (le_trans hab hb), boundaryIdx_ascii h hb]

theorem toLower_ascii {c : Char} (h : c.toNat < 128) : (Char.toLower c).toNat < 128 := by
  unfold Char.toLower
  dsimp only
  split
  · rename_i hcase
    obtain ⟨h1, h2⟩ := hcase
    generalize c.toNat = n at h1 h2
    interval_cases n <;> decide
  · exact h

theorem ascii_ne_idot {c : Char} (h : c.toNat < 128) : c ≠ 'İ' := by
  intro hc
  rw [hc] at h
  exact absurd h (by decide)

theorem rustCharLower_ascii {c : Char} (h : c.toNat < 128) :
    rustCharLower c = [Char.toLower c] := by
  unfold rustCharLower
  rw [if_neg (ascii_ne_idot h)]

theorem rustToLowercase_ascii : ∀ {t : List Char}, AsciiText t →
    rustToLowercase t = t.map Char.toLower := by
  intro t
  induction t with
  | nil => intro _; rfl
  | cons c cs ih =>
    intro h
    have hc := h c (List.mem_cons_self _ _)
    have hcs : AsciiText cs := fun d hd => h d (List.mem_cons_of_mem _ hd)
    unfold rustToLowercase at *
    rw [List.flatMap_cons, List.map_cons, rustCharLower_ascii hc, ih hcs]
    rfl

theorem ascii_map_toLower {t : List Char} (h : AsciiText t) :
    AsciiText (t.map Char.toLower) := by
  intro c hc
  rcases List.mem_map.mp hc with ⟨d, hd, rfl⟩
  exact toLower_ascii (h d hd)

/-! ## Whitespace and lowercasing -/

theorem ws_toLower {c : Char} (h : rustIsWhitespace c = true) : Char.toLower c = c := by
  unfold Char.toLower
  dsimp only
  rw [if_neg]
  unfold rustIsWhitespace at h
  simp only [Bool.or_eq_true, decide_eq_true_eq] at h
  intro hcase
  rcases h with ((((h | h) | h) | h) | h) | h <;> omega

theorem not_ws_of_toLower {c : Char} (h : rustIsWhitespace (Char.toLower c) = false) :
    rustIsWhitespace c = false := by
  cases hv : rustIsWhitespace c
  · rfl
  · rw [ws_toLower hv] at h
    rw [hv] at h
    exact absurd h (by decide)


/-! ## Substring search -/

theorem findCharIdx_prefix : ∀ {hay needle : List Char} {i : Nat},
    findCharIdx hay needle = some i → needle <+: hay.drop i ∧ i ≤ hay.length := by
  intro hay
  induction hay with
  | nil =>
    intro needle i h
    unfold findCharIdx at h
    split at h
    · rename_i hp
      cases h
      exact ⟨List.isPrefixOf_iff_prefix.mp hp, Nat.zero_le _⟩
    · exact absurd h (by simp)
  | cons c cs ih =>
    intro needle i h
    unfold findCharIdx at h
    split at h
    · rename_i hp
      cases h
      exact ⟨List.isPrefixOf_iff_prefix.mp hp, Nat.zero_le _⟩
    · dsimp only at h
      cases hrec : findCharIdx cs needle with
      | none => rw [hrec] at h; exact absurd h (by simp)
      | some j =>
        rw [hrec] at h
        cases h
        obtain ⟨h1, h2⟩ := ih hrec
        exact ⟨h1, by simpa using Nat.succ_le_succ h2⟩

theorem findCharIdx_of_contains : ∀ {hay needle : List Char}, needle <:+: hay →
    ∃ i, findCharIdx hay needle = some i := by
  intro hay
  induction hay with
  | nil =>
    intro needle h
    rw [List.infix_nil] at h
    subst h
    exact ⟨0, rfl⟩
  | cons c cs ih =>
    intro needle h
    unfold findCharIdx
    split
    · exact ⟨0, rfl⟩
    · rename_i hp
      rcases List.infix_cons_iff.mp h with hx | hx
      · exact absurd (List.isPrefixOf_iff_prefix.mpr hx) (by simpa using hp)
      · rcases ih hx with ⟨j, hj⟩
        refine ⟨j + 1, ?_⟩
        dsimp only
        rw [hj]
        rfl

theorem rustFind_ascii {hay needle : List Char} (h : AsciiText hay) :
    rustFind hay needle = findCharIdx hay needle := by
  unfold rustFind
  cases hf : findCharIdx hay needle with
  | none => rfl
  | some i =>
    obtain ⟨_, hle⟩ := findCharIdx_prefix hf
    dsimp only [Option.map]
    rw [byteLen_ascii (ascii_take h i), List.length_take, Nat.min_eq_left hle]

theorem firstTriggerMatch_some : ∀ {trigs : List (List Char)} {tl : List Char}
    {trig : List Char} {pos : Nat},
    firstTriggerMatch tl trigs = some (trig, pos) →
    trig ∈ trigs ∧ rustFind tl (rustToLowercase trig) = some pos := by
  intro trigs
  induction trigs with
  | nil =>
    intro tl trig pos h
    rw [show firstTriggerMatch tl ([] : List (List Char)) = none from rfl] at h
    exact Option.noConfusion h
  | cons tr rest ih =>
    intro tl trig pos h
    unfold firstTriggerMatch at h
    cases hf : rustFind tl (rustToLowercase tr) with
    | some p =>
      rw [hf] at h
      cases h
      exact ⟨List.mem_cons_self _ _, hf⟩
    | none =>
      rw [hf] at h
      obtain ⟨h1, h2⟩ := ih h
      exact ⟨List.mem_cons_of_mem _ h1, h2⟩

theorem firstTriggerMatch_exists : ∀ {trigs : List (List Char)} {tl : List Char},
    (∃ trig ∈ trigs, rustFind tl (rustToLowercase trig) ≠ none) →
    ∃ trig pos, firstTriggerMatch tl trigs = some (trig, pos) := by
  intro trigs
  induction trigs with
  | nil =>
    rintro tl ⟨trig, htr, _⟩
    exact absurd htr (List.not_mem_nil _)
  | cons tr rest ih =>
    rintro tl ⟨trig, htr, hne⟩
    unfold firstTriggerMatch
    cases hf : rustFind tl (rustToLowercase tr) with
    | some p => exact ⟨tr, p, rfl⟩
    | none =>
      rcases List.mem_cons.mp htr with rfl | hmem
      · exact absurd hf hne
      · exact ih ⟨trig, hmem, hne⟩

/-! ## Trimming -/

/-- A nonempty suffix whose head fails the predicate survives
`dropWhile`. -/
theorem suffix_dropWhile {p : Char → Bool} {c : Char} {rest : List Char}
    (hc : p c = false) : ∀ {L : List Char}, (c :: rest) <:+ L →
    (c :: rest) <:+ L.dropWhile p := by
  intro L
  induction L with
  | nil =>
    intro h
    exact absurd (List.eq_nil_of_suffix_nil h) (by simp)
  | cons d L' ih =>
    intro h
    rw [List.dropWhile_cons]
    split
    · rename_i hd
      rcases List.suffix_cons_iff.mp h with he | hs
      · have : d = c := by
          injection he with he1 _
          exact he1.symm
        rw [this] at hd
        rw [hd] at hc
        exact absurd hc (by decide)
      · exact ih hs
    · exact h

/-- `rustTrim` only removes characters from the two ends. -/
theorem rustTrim_contig (l : List Char) : rustTrim l <:+: l := by
  unfold rustTrim
  have h1 : (l.dropWhile rustIsWhitespace) <:+ l := List.dropWhile_suffix _
  have h2 : ((l.dropWhile rustIsWhitespace).reverse.dropWhile rustIsWhitespace).reverse <+:
      l.dropWhile rustIsWhitespace := by
    rw [← List.reverse_reverse (l.dropWhile rustIsWhitespace)]
    rw [List.reverse_prefix]
    rw [List.reverse_reverse]
    exact List.dropWhile_suffix _
  exact h2.isInfix.trans h1.isInfix

/-- A prefix with non-whitespace first and last characters survives
`rustTrim`. -/
theorem prefix_rustTrim {pfx l : List Char} (hp : pfx <+: l)
    (hhead : ∀ c, pfx.head? = some c → rustIsWhitespace c = false)
    (hlast : ∀ c, pfx.getLast? = some c → rustIsWhitespace c = false) :
    pfx <+: rustTrim l := by
  cases hpe : pfx with
  | nil => exact List.nil_prefix
  | cons c rest =>
    subst hpe
    have hc : rustIsWhitespace c = false := hhead c rfl
    -- step 1: trimLeft leaves l unchanged on the matched prefix
    have hl : l.dropWhile rustIsWhitespace = l := by
      rcases hp with ⟨tail, rfl⟩
      rw [List.cons_append, List.dropWhile_cons, if_neg (by rw [hc]; decide)]
    unfold rustTrim
    rw [hl]
    -- step 2: trimRight preserves the prefix, via the reversed suffix
    have hp2 : (c :: rest).reverse <:+ l.reverse := List.reverse_suffix.mpr hp
    rw [← List.reverse_suffix, List.reverse_reverse]
    rcases hrev : (c :: rest).reverse with _ | ⟨d, rev2⟩
    · exact absurd (congrArg List.length hrev) (by simp)
    · rw [hrev] at hp2
      have hd : rustIsWhitespace d = false := by
        apply hlast
        rw [← List.head?_reverse, hrev]
        rfl
      exact suffix_dropWhile hd hp2

/-! ## C7: evidence spans -/

/-- A successful byte slice is a contiguous piece of the text. -/
theorem byteSlice_contig {s : List Char} {a b : Nat} {q : List Char}
    (h : byteSlice s a b = some q) : q <:+: s := by
  unfold byteSlice at h
  split at h
  · rcases hba : boundaryIdx s a with _ | i <;> rcases hbb : boundaryIdx s b with _ | j <;>
      rw [hba, hbb] at h <;> dsimp only at h <;> first
      | (cases h
         exact ((List.drop_suffix i (s.take j)).isInfix).trans (List.take_prefix j s).isInfix)
      | exact absurd h (by simp)
  · exact absurd h (by simp)

/-- C7 (amended): every alert produced by the transcript-scanning path
carries a quote that is the whitespace-trimmed form of a contiguous
slice of the transcript — in particular a substring of the transcript —
while the metadata rules `DNC-003` and `PREC-001` instead carry a fixed
explanatory quote with `start_char = end_char = 0` that is not drawn
from the transcript. -/
theorem C7_evidence_spans (m : CallMetadata) (t : List Char) (rf : RegexOracle)
    (st : ConversationState) (out : EvaluationOutput) (st' : ConversationState)
    (hev : evaluate m t defaultRuleSet rf st = .ok (out, st')) :
    ∀ a ∈ out.alerts,
      (∃ q, q <:+: t ∧ a.evidence.quote = rustTrim q ∧ a.evidence.quote <:+: t) ∨
      (((a.rule_id = "DNC-003" ∧
          a.evidence.quote = chars "Number is on National DNC Registry (metadata flag)") ∨
        (a.rule_id = "PREC-001" ∧
          a.evidence.quote =
            chars "Using prerecorded/artificial voice without consent (metadata flag)")) ∧
       a.evidence.start_char = 0 ∧ a.evidence.end_char = 0) := by
  intro a ha
  obtain ⟨_, _, _, _, hprov, _, _⟩ := evaluate_ok hev
  rcases hprov a ha with ⟨r, _, s₀, s₁, hck, _⟩
  cases hmr : r.requires_metadata with
  | true =>
    have hmeta := meta_alert_chain hmr hck
    rcases check_metadata_rule_some hmeta with ⟨hrid, _, _, hs0, he0, hcase⟩
    rcases hcase with ⟨hid, _, _, hq⟩ | ⟨hid, _, _, hq⟩
    · exact Or.inr ⟨Or.inl ⟨by rw [hrid, hid], hq⟩, hs0, he0⟩
    · exact Or.inr ⟨Or.inr ⟨by rw [hrid, hid], hq⟩, hs0, he0⟩
  | false =>
    unfold check_rule at hck
    rw [if_neg (by rw [hmr]; decide)] at hck
    cases htm : firstTriggerMatch (rustToLowercase t) r.triggers with
    | some p =>
      obtain ⟨trig, pos⟩ := p
      rw [htm] at hck
      dsimp only at hck
      obtain ⟨_, _, _, _, _, hsome, _⟩ := checkTriggerHit_ok hck
      rcases hsome a rfl with ⟨_, _, _, sl, hsl, hev2⟩
      refine Or.inl ⟨sl, byteSlice_contig hsl, by rw [hev2], ?_⟩
      rw [hev2]
      exact (rustTrim_contig sl).trans (byteSlice_contig hsl)
    | none =>
      rw [htm] at hck
      dsimp only at hck
      cases hrm : firstRegexMatch rf (rustToLowercase t) r.regex_patterns with
      | some p =>
        obtain ⟨ms, me⟩ := p
        rw [hrm] at hck
        dsimp only at hck
        obtain ⟨_, _, _, _, _, _, _, _, _, hsome, _⟩ := checkRegexHit_ok hck
        rcases hsome a rfl with ⟨_, _, _, sl, hsl, hev2⟩
        refine Or.inl ⟨sl, byteSlice_contig hsl, by rw [hev2], ?_⟩
        rw [hev2]
        exact (rustTrim_contig sl).trans (byteSlice_contig hsl)
      | none =>
        rw [hrm] at hck
        dsimp only at hck
        exact absurd hck (by simp)

set_option maxRecDepth 16384 in
/-- Counterexample for C7 as stated: on an empty transcript the
`DNC-003` metadata alert carries a fixed descriptive quote that is not a
substring of the transcript, and its offsets do not bound the quoted
text. -/
theorem C7_counterexample :
    (evalOk (evaluate mDnc [] defaultRuleSet rfNone ConversationState.init)).map
      (fun p => p.1.alerts.map (fun a =>
        (a.rule_id, a.evidence.quote, a.evidence.start_char, a.evidence.end_char))) =
      some [("DNC-003", chars "Number is on National DNC Registry (metadata flag)", 0, 0)] ∧
    ¬(chars "Number is on National DNC Registry (metadata flag)" <:+: ([] : List Char)) := by
  refine ⟨by decide, ?_⟩
  rw [List.infix_nil]
  decide

/-- Output of the plain `DNC-001` scenario. -/
def outDnc : EvaluationOutput :=
  ((evalOk (evaluate mPlain tDnc defaultRuleSet rfNone ConversationState.init)).getD
    (⟨[], []⟩, ConversationState.init)).1

/-- Final state of the plain `DNC-001` scenario. -/
def stDnc2 : ConversationState :=
  ((evalOk (evaluate mPlain tDnc defaultRuleSet rfNone ConversationState.init)).getD
    (⟨[], []⟩, ConversationState.init)).2

set_option maxRecDepth 16384 in
/-- Witness for C7 at the `DNC-001` trigger scenario. -/
theorem C7_witness :
    (∃ q, q <:+: tDnc ∧
      ((outDnc.alerts.getD 0 anyAlert).evidence.quote = rustTrim q) ∧
      (outDnc.alerts.getD 0 anyAlert).evidence.quote <:+: tDnc) ∨
    ((((outDnc.alerts.getD 0 anyAlert).rule_id = "DNC-003" ∧
        (outDnc.alerts.getD 0 anyAlert).evidence.quote =
          chars "Number is on National DNC Registry (metadata flag)") ∨
      ((outDnc.alerts.getD 0 anyAlert).rule_id = "PREC-001" ∧
        (outDnc.alerts.getD 0 anyAlert).evidence.quote =
          chars "Using prerecorded/artificial voice without consent (metadata flag)")) ∧
     (outDnc.alerts.getD 0 anyAlert).evidence.start_char = 0 ∧
     (outDnc.alerts.getD 0 anyAlert).evidence.end_char = 0) := by
  have h : evaluate mPlain tDnc defaultRuleSet rfNone ConversationState.init =
      .ok (outDnc, stDnc2) := by decide
  exact C7_evidence_spans mPlain tDnc rfNone ConversationState.init outDnc stDnc2 h
    (outDnc.alerts.getD 0 anyAlert) (by decide)


/-! ## C6: trigger-phrase alerts -/

/-- Both ends of the list exist and are not whitespace. -/
def noWsEnds (l : List Char) : Bool :=
  (match l.head? with
   | some c => !rustIsWhitespace c
   | none => false) &&
  (match l.getLast? with
   | some c => !rustIsWhitespace c
   | none => false)

theorem noWsEnds_head {l : List Char} (h : noWsEnds l = true) :
    ∀ c, l.head? = some c → rustIsWhitespace c = false := by
  intro c hc
  unfold noWsEnds at h
  rw [hc] at h
  rw [Bool.and_eq_true] at h
  simpa using h.1

theorem noWsEnds_getLast {l : List Char} (h : noWsEnds l = true) :
    ∀ c, l.getLast? = some c → rustIsWhitespace c = false := by
  intro c hc
  unfold noWsEnds at h
  rw [hc] at h
  rw [Bool.and_eq_true] at h
  simpa using h.2

/-- With pairwise-distinct ids, the filter on a member's id is that
singleton. -/
theorem filter_id_singleton : ∀ {l : List Alert} {a : Alert},
    (l.map (fun b => b.rule_id)).Nodup → a ∈ l →
    l.filter (fun b => b.rule_id == a.rule_id) = [a] := by
  intro l
  induction l with
  | nil => intro a _ ha; cases ha
  | cons c cs ih =>
    intro a hnd ha
    rw [List.map_cons, List.nodup_cons] at hnd
    obtain ⟨hc, hnd2⟩ := hnd
    rcases List.mem_cons.mp ha with rfl | hmem
    · rw [List.filter_cons_of_pos (by simp)]
      have : cs.filter (fun b => b.rule_id == a.rule_id) = [] := by
        rw [List.filter_eq_nil_iff]
        intro b hb hbid
        rw [beq_iff_eq] at hbid
        exact hc (List.mem_map.mpr ⟨b, hb, hbid⟩)
      rw [this]
    · rw [List.filter_cons_of_neg ?_]
      · exact ih hnd2 hmem
      · intro hcid
        rw [beq_iff_eq] at hcid
        exact hc (List.mem_map.mpr ⟨a, hmem, hcid.symm⟩)

/-- A trigger match whose slice succeeds makes `check_rule` emit the
corresponding alert from every state past the `DNC-002` gate. -/
theorem trigger_fires {m : CallMetadata} {t tl : List Char} {rf : RegexOracle} {r : Rule}
    {trig sl : List Char} {pos : Nat}
    (hreq : r.requires_metadata = false)
    (hmatch : firstTriggerMatch tl r.triggers = some (trig, pos))
    (hsl : byteSlice t pos (min (pos + byteLen trig + 30) (byteLen t)) = some sl)
    (s₀ : ConversationState)
    (hgate : ¬(r.id = "DNC-002" ∧ s₀.dnc_requested = false)) :
    ∃ s₁, check_rule m t tl rf r s₀ =
      .ok (some ⟨uuidNewV4, r.id, r.title, severity_to_string r.severity, 90,
        ⟨rustTrim sl, pos, pos + byteLen trig⟩, r.why_it_matters, r.recommended_fix⟩, s₁) := by
  unfold check_rule
  rw [if_neg (by rw [hreq]; decide), hmatch]
  dsimp only
  unfold checkTriggerHit
  dsimp only
  rw [hsl]
  dsimp only
  by_cases h1 : r.id = "DNC-001"
  · rw [if_pos h1]
    rw [if_neg (fun hx => absurd (h1 ▸ hx.1 : ("DNC-001" : String) = "DNC-002") (by decide))]
    rw [if_neg (fun hx : r.id = "CONS-001" =>
      absurd (h1 ▸ hx : ("DNC-001" : String) = "CONS-001") (by decide))]
    exact ⟨_, rfl⟩
  · rw [if_neg h1, if_neg hgate]
    by_cases h3 : r.id = "CONS-001"
    · rw [if_pos h3]
      exact ⟨_, rfl⟩
    · rw [if_neg h3]
      exact ⟨_, rfl⟩


set_option maxRecDepth 16384 in
/-- C6 (amended): for the non-metadata, non-disclosure rules of the
default catalog (`DNC-001`, `DNC-002` with its gate satisfied,
`CONS-001`), on an ASCII transcript containing one of the rule's trigger
phrases case-insensitively, a first evaluation for that rule emits
exactly one alert for its id, with confidence 90, whose evidence quote
is the whitespace-trimmed 30-byte-lookahead window starting at the first
match — and the quote contains the matched trigger text up to letter
case. -/
theorem C6_trigger_alerts :
    ∀ (r : Rule), (r = ruleDNC001 ∨ r = ruleDNC002 ∨ r = ruleCONS001) →
    ∀ (m : CallMetadata) (t : List Char) (rf : RegexOracle) (st : ConversationState)
      (out : EvaluationOutput) (st' : ConversationState),
    AsciiText t →
    evaluate m t defaultRuleSet rf st = .ok (out, st') →
    r.id ∉ st.seen_alerts →
    (r.id = "DNC-002" → st.dnc_requested = true) →
    (∃ trig0 ∈ r.triggers, rustToLowercase trig0 <:+: rustToLowercase t) →
    ∃ a trig pos,
      out.alerts.filter (fun b => b.rule_id == r.id) = [a] ∧
      trig ∈ r.triggers ∧
      firstTriggerMatch (rustToLowercase t) r.triggers = some (trig, pos) ∧
      a.rule_id = r.id ∧ a.confidence = 90 ∧
      (∃ sl, byteSlice t pos (min (pos + byteLen trig + 30) (byteLen t)) = some sl ∧
        a.evidence = ⟨rustTrim sl, pos, pos + byteLen trig⟩) ∧
      rustToLowercase trig <:+: rustToLowercase a.evidence.quote := by
  intro r hr m t rf st out st' hascii hev hns hgate hex
  have hreq : r.requires_metadata = false := by rcases hr with rfl | rfl | rfl <;> decide
  have hrmem : r ∈ defaultRuleSet.rules := by rcases hr with rfl | rfl | rfl <;> decide
  have huniq : ∀ r' ∈ defaultRuleSet.rules, r'.id = r.id → r' = r := by
    rcases hr with rfl | rfl | rfl <;> decide
  have htf : ∀ trig ∈ r.triggers, AsciiText trig ∧ trig ≠ [] ∧
      noWsEnds (rustToLowercase trig) = true := by
    rcases hr with rfl | rfl | rfl <;> decide
  set tl := rustToLowercase t with htl
  have htlm : tl = t.map Char.toLower := rustToLowercase_ascii hascii
  have htla : AsciiText tl := by rw [htlm]; exact ascii_map_toLower hascii
  obtain ⟨trig0, htr0, hinf0⟩ := hex
  have hfind0 : rustFind tl (rustToLowercase trig0) ≠ none := by
    rw [rustFind_ascii htla]
    rcases findCharIdx_of_contains hinf0 with ⟨i, hi⟩
    rw [hi]
    simp
  obtain ⟨trig, pos, hmatch⟩ := firstTriggerMatch_exists ⟨trig0, htr0, hfind0⟩
  obtain ⟨htrmem, hfind⟩ := firstTriggerMatch_some hmatch
  obtain ⟨htri_ascii, htri_ne, htri_ws⟩ := htf trig htrmem
  rw [rustFind_ascii htla] at hfind
  obtain ⟨hpre, hposle⟩ := findCharIdx_prefix hfind
  set ntrig := rustToLowercase trig with hnt
  have hntm : ntrig = trig.map Char.toLower := rustToLowercase_ascii htri_ascii
  have hntlen : ntrig.length = trig.length := by rw [hntm, List.length_map]
  have hbl : byteLen trig = trig.length := byteLen_ascii htri_ascii
  have hblt : byteLen t = t.length := byteLen_ascii hascii
  have htllen : tl.length = t.length := by rw [htlm, List.length_map]
  have hlen1 : pos + trig.length ≤ t.length := by
    have h2 := hpre.length_le
    rw [List.length_drop, hntlen, htllen] at h2
    omega
  set ce := min (pos + byteLen trig + 30) (byteLen t) with hce
  have hce1 : pos + trig.length ≤ ce := by
    rw [hce, hbl, hblt]
    exact Nat.le_min.mpr ⟨by omega, hlen1⟩
  have hce2 : ce ≤ t.length := by rw [hce, hblt]; exact Nat.min_le_right _ _
  have hsl : byteSlice t pos ce = some ((t.take ce).drop pos) :=
    byteSlice_ascii hascii (by omega) hce2
  set sl := (t.take ce).drop pos with hslv
  have hfires : ∀ s₀, MonoLe st s₀ → ∃ s₁, check_rule m t tl rf r s₀ =
      .ok (some ⟨uuidNewV4, r.id, r.title, severity_to_string r.severity, 90,
        ⟨rustTrim sl, pos, pos + byteLen trig⟩, r.why_it_matters, r.recommended_fix⟩, s₁) := by
    intro s₀ hm
    refine trigger_fires hreq hmatch hsl s₀ (fun hx => ?_)
    have hd := hm.1 (hgate hx.1)
    rw [hd] at hx
    exact absurd hx.2 (by decide)
  have hmema := evaluate_fires hev hrmem hns huniq hfires
  obtain ⟨_, _, hnodup, _, _⟩ := evaluate_ok hev
  refine ⟨⟨uuidNewV4, r.id, r.title, severity_to_string r.severity, 90,
      ⟨rustTrim sl, pos, pos + byteLen trig⟩, r.why_it_matters, r.recommended_fix⟩,
    trig, pos, filter_id_singleton hnodup hmema, htrmem, hmatch, rfl, rfl,
    ⟨sl, hsl, rfl⟩, ?_⟩
  dsimp only
  set mtxt := (t.drop pos).take trig.length with hmt
  have hsl2 : sl = (t.drop pos).take (ce - pos) := by rw [hslv, List.drop_take]
  have hmp : mtxt <+: sl := by
    rw [hsl2, hmt]
    rw [List.prefix_take_iff]
    refine ⟨List.take_prefix _ _, ?_⟩
    rw [List.length_take, List.length_drop]
    exact le_trans (Nat.min_le_left _ _) (by omega)
  have hmap : mtxt.map Char.toLower = ntrig := by
    have h1 : ntrig = (tl.drop pos).take ntrig.length := List.prefix_iff_eq_take.mp hpre
    rw [h1, htlm, ← List.map_drop, ← List.map_take, hntlen, hmt]
  have hmne : mtxt ≠ [] := by
    intro hx
    have h2 := congrArg List.length hmap
    rw [hx] at h2
    simp only [List.map_nil, List.length_nil] at h2
    rw [hntlen] at h2
    exact htri_ne (List.length_eq_zero.mp h2.symm)
  have hhead : ∀ c, mtxt.head? = some c → rustIsWhitespace c = false := by
    intro c hc
    have h2 : ntrig.head? = some (Char.toLower c) := by
      rw [← hmap, List.head?_map, hc]
      rfl
    exact not_ws_of_toLower (noWsEnds_head htri_ws _ h2)
  have hlast : ∀ c, mtxt.getLast? = some c → rustIsWhitespace c = false := by
    intro c hc
    have h2 : ntrig.getLast? = some (Char.toLower c) := by
      rw [← hmap, List.getLast?_map, hc]
      rfl
    exact not_ws_of_toLower (noWsEnds_getLast htri_ws _ h2)
  have hmq : mtxt <+: rustTrim sl := prefix_rustTrim hmp hhead hlast
  have hq_ascii : AsciiText (rustTrim sl) := by
    intro c hc
    have h1 : c ∈ sl := (rustTrim_contig sl).subset hc
    have h2 : c ∈ t := by
      rw [hslv] at h1
      exact List.take_subset _ _ (List.drop_subset _ _ h1)
    exact hascii c h2
  rw [rustToLowercase_ascii hq_ascii, ← hnt, ← hmap]
  exact (hmq.map Char.toLower).isInfix


/-- A transcript prefixed with ten U+0130 characters: lowering grows its
byte length, so byte positions found in the lowered transcript are
shifted against the original. -/
def tIdot : List Char := List.replicate 10 'İ' ++ chars " don\x27t call me"

set_option maxRecDepth 16384 in
/-- Counterexample for C6 as stated: `tIdot` contains the `DNC-001`
trigger "don\x27t call me" case-insensitively, yet the emitted alert's
quote is "me" — not the matched text plus a 30-character window, and it
does not contain the trigger text (in any letter case) — and its
`end_char` 44 even exceeds the transcript's byte length 34: the match
position 31 found in the lowered transcript (where each U+0130 occupies
three bytes) is applied to the original transcript (where it occupies
two). -/
theorem C6_counterexample :
    (evalOk (evaluate mPlain tIdot defaultRuleSet rfNone ConversationState.init)).map
      (fun p => p.1.alerts.map (fun a =>
        (a.rule_id, a.confidence, a.evidence.quote, a.evidence.start_char,
          a.evidence.end_char))) =
      some [("DNC-001", 90, chars "me", 31, 44)] ∧
    (rustToLowercase (chars "don\x27t call me") <:+: rustToLowercase tIdot) ∧
    byteLen tIdot = 34 ∧
    ¬(rustToLowercase (chars "don\x27t call me") <:+: rustToLowercase (chars "me")) ∧
    (∀ trig ∈ ruleDNC001.triggers,
      ¬(rustToLowercase trig <:+: rustToLowercase (chars "me"))) := by
  refine ⟨by decide, by decide, by decide, by decide, by decide⟩

/-- An ASCII transcript carrying the `DNC-001` trigger in upper case. -/
def tUpper : List Char := chars "hello, DON\x27T CALL ME again"

/-- Output of the upper-case trigger scenario. -/
def outUpper : EvaluationOutput :=
  ((evalOk (evaluate mPlain tUpper defaultRuleSet rfNone ConversationState.init)).getD
    (⟨[], []⟩, ConversationState.init)).1

/-- Final state of the upper-case trigger scenario. -/
def stUpper : ConversationState :=
  ((evalOk (evaluate mPlain tUpper defaultRuleSet rfNone ConversationState.init)).getD
    (⟨[], []⟩, ConversationState.init)).2

set_option maxRecDepth 16384 in
/-- Witness for C6 at the upper-case `DNC-001` scenario. -/
theorem C6_witness :
    ∃ a trig pos,
      outUpper.alerts.filter (fun b => b.rule_id == ruleDNC001.id) = [a] ∧
      trig ∈ ruleDNC001.triggers ∧
      firstTriggerMatch (rustToLowercase tUpper) ruleDNC001.triggers = some (trig, pos) ∧
      a.rule_id = ruleDNC001.id ∧ a.confidence = 90 ∧
      (∃ sl, byteSlice tUpper pos (min (pos + byteLen trig + 30) (byteLen tUpper)) =
          some sl ∧
        a.evidence = ⟨rustTrim sl, pos, pos + byteLen trig⟩) ∧
      rustToLowercase trig <:+: rustToLowercase a.evidence.quote := by
  have h : evaluate mPlain tUpper defaultRuleSet rfNone ConversationState.init =
      .ok (outUpper, stUpper) := by decide
  exact C6_trigger_alerts ruleDNC001 (Or.inl rfl) mPlain tUpper rfNone
    ConversationState.init outUpper stUpper (by decide) h (by decide)
    (fun hx => absurd hx (by decide)) ⟨chars "don\x27t call me", by decide, by decide⟩

end Whisperwire
